import Mathlib

/-!
Shallow embedding of the in-browser Ultimate Frisbee scorekeeping core
(`scripts.js`): event log, derived scoreboard, ABBA gender-sequence labels,
timeout balances, halftime triggers, restore/refuse protocol and CSV export,
together with proofs about the specified properties.

JavaScript numbers that only ever hold small non-negative integers in the
source (scores, indices) are modelled as `Nat`; quantities on which the source
performs explicit `Math.max(0, ...)` / `Math.min(...)` clamping of possibly
negative intermediate values (timeout balances, settings) are modelled as
`Int` with the clamps written out.
-/

namespace Scorekeeper

/-- Team side letter stored in `TeamLetter` ('A' or 'B'); `none` models the
empty string used for events not attributed to a side. -/
inductive Team where
  | A
  | B
deriving DecidableEq, Repr

/-- The `Type` field of a log entry; the source stores the lowercase strings
'score', 'timeout', 'halftime', 'stoppage', 'matchstart' and every write site
uses exactly one of them (`getLogType` defaults the empty string to 'score'). -/
inductive LogType where
  | score
  | timeout
  | halftime
  | stoppage
  | matchstart
deriving DecidableEq, Repr

/-- The ABBA start setting `abbaStart`: the strings 'M', 'F', 'NONE'.
Every write site (`handleAbbaChange`, restore) normalises to one of these. -/
inductive AbbaStart where
  | M
  | F
  | NONE
deriving DecidableEq, Repr

/-- `computeAbbaForIndex` (scripts.js:2482-2492): ABBA value for a scoring
index.  Pattern: start, then pairs alternating other/start. -/
def computeAbbaForIndex (abbaStart : AbbaStart) (index : Nat) : String :=
  if abbaStart = AbbaStart.NONE then ""
  else
    let start := if abbaStart = AbbaStart.F then "F" else "M"
    let other := if start = "M" then "F" else "M"
    -- First point is a single occurrence of start (index 0)
    if index = 0 then start
    else
      -- Thereafter alternate in pairs: other, other, start, start, ...
      let adjusted := index - 1
      let block := adjusted / 2
      if block % 2 = 0 then other else start

/-- `getEventTypeLabel` (scripts.js:1982-1995): the `EventType` label per log
type; the `default` branch of the switch returns "Score". -/
def getEventTypeLabel (type : LogType) : String :=
  match type with
  | LogType.matchstart => "Start"
  | LogType.timeout => "TimeOut"
  | LogType.stoppage => "Stoppage"
  | LogType.halftime => "HalfTime"
  | LogType.score => "Score"

end Scorekeeper

namespace Scorekeeper

/-- The display label chosen in `recordSpecialEvent` (scripts.js:1998-2015). -/
def specialEventDisplayLabel (type : LogType) : String :=
  match type with
  | LogType.timeout => "Time out"
  | LogType.halftime => "HT"
  | LogType.matchstart => "MatchStart"
  | LogType.stoppage => "STOP"
  | LogType.score => "SCORE"

end Scorekeeper

namespace Scorekeeper

/-- One entry of the event log (`createLogObject`, scripts.js:2846-2876).
`Time` holds the display-only wall-clock string (`new Date().toLocaleString()`),
modelled as the creation-time millisecond value rendered to a string. -/
structure LogEntry where
  scoreID : String
  GameID : String
  Time : String
  Team : String
  TeamName : String
  TeamLetter : Option Scorekeeper.Team
  Score : String
  Assist : String
  type : LogType
  Event : String
  EventType : String
  HalftimeReason : Option String
deriving DecidableEq, Repr

/-- Decimal digit character, as produced by JavaScript number-to-string
conversion for a digit value `d < 10`. -/
def decimalDigitChar (d : Nat) : Char :=
  Char.ofNat (48 + d)

/-- Decimal digit characters of `n`, most significant first; `fuel` bounds the
recursion depth (any `fuel ≥ n` gives the full rendering). -/
def digitChars : Nat → Nat → List Char
  | 0, _ => []
  | fuel + 1, n =>
    if n = 0 then [] else digitChars fuel (n / 10) ++ [decimalDigitChar (n % 10)]

/-- JavaScript `Number.prototype.toString()` for a non-negative integer:
its decimal representation.  Used for `Date.now().toString()` ids. -/
def jsNumToString (n : Nat) : String :=
  if n = 0 then "0" else String.mk (digitChars n n)

theorem digitChars_eq (fuel n : Nat) (h : n ≤ fuel) :
    digitChars fuel n = ((Nat.digits 10 n).map decimalDigitChar).reverse := by
  induction fuel generalizing n with
  | zero => interval_cases n; simp [digitChars]
  | succ fuel ih =>
    by_cases hn : n = 0
    · subst hn; simp [digitChars]
    · have hdiv : n / 10 < n := Nat.div_lt_self (Nat.pos_of_ne_zero hn) (by norm_num)
      rw [digitChars, if_neg hn, ih (n / 10) (by omega),
        Nat.digits_def' (by norm_num : (1 : Nat) < 10) (Nat.pos_of_ne_zero hn)]
      simp

theorem jsNumToString_eq_digits (n : Nat) :
    jsNumToString n =
      if n = 0 then "0" else String.mk (((Nat.digits 10 n).map decimalDigitChar).reverse) := by
  by_cases hn : n = 0 <;> simp [jsNumToString, hn, digitChars_eq n n le_rfl]

/-- Reading a decimal digit character back to its value. -/
def decimalCharVal (c : Char) : Nat :=
  c.toNat - 48

/-- Left inverse of `jsNumToString`: parse the decimal string back. -/
def parseDecimal (s : String) : Nat :=
  Nat.ofDigits 10 ((s.data.map decimalCharVal).reverse)

theorem decimalCharVal_decimalDigitChar {d : Nat} (hd : d < 10) :
    decimalCharVal (decimalDigitChar d) = d := by
  interval_cases d <;> rfl

theorem parseDecimal_jsNumToString (n : Nat) :
    parseDecimal (jsNumToString n) = n := by
  by_cases h : n = 0
  · subst h; rfl
  · unfold parseDecimal
    rw [jsNumToString_eq_digits, if_neg h]
    have hmap : ((((Nat.digits 10 n).map decimalDigitChar).reverse).map
        decimalCharVal).reverse = Nat.digits 10 n := by
      rw [List.map_reverse, List.reverse_reverse, List.map_map]
      have : ∀ d ∈ Nat.digits 10 n, (decimalCharVal ∘ decimalDigitChar) d = id d := by
        intro d hdmem
        have hlt : d < 10 := Nat.digits_lt_base (by norm_num) hdmem
        simp [Function.comp, decimalCharVal_decimalDigitChar hlt]
      rw [List.map_congr_left this, List.map_id]
    change Nat.ofDigits 10
        (((((Nat.digits 10 n).map decimalDigitChar).reverse).map decimalCharVal).reverse) = n
    rw [hmap]
    exact Nat.ofDigits_digits 10 n

theorem jsNumToString_injective : Function.Injective jsNumToString :=
  Function.LeftInverse.injective parseDecimal_jsNumToString

end Scorekeeper

namespace Scorekeeper

/-- Operator-editable settings `gameSettings` (constructor, scripts.js:1056-1063).
Durations in minutes/seconds, timeout allotments as counts. -/
structure GameSettings where
  matchDuration : Int
  halftimeDuration : Int
  halftimeBreakDuration : Int
  timeoutDuration : Int
  timeoutsTotal : Int
  timeoutsPerHalf : Int
deriving DecidableEq, Repr

/-- Per-team timeout balances (`timeoutState.A` / `timeoutState.B`). -/
structure TeamTimeouts where
  totalRemaining : Int
  halfRemaining : Int
deriving DecidableEq, Repr

/-- Both teams' timeout balances. -/
structure TimeoutState where
  A : TeamTimeouts
  B : TeamTimeouts
deriving DecidableEq, Repr

/-- A possibly absent / non-numeric stored balance field, as found in a
restored snapshot (`savedState?.[teamKey]?.totalRemaining`); `none` models a
missing or non-number value. -/
structure SavedTeamTimeouts where
  totalRemaining : Option Int
  halfRemaining : Option Int
deriving DecidableEq, Repr

/-- A possibly absent per-team saved timeout state. -/
structure SavedTimeoutState where
  A : Option SavedTeamTimeouts
  B : Option SavedTeamTimeouts
deriving DecidableEq, Repr

/-- `usesPerHalfTimeouts` (scripts.js:2542-2544): per-half limiting is enabled
when `timeoutsPerHalf` is a (finite) number greater than zero. -/
def usesPerHalfTimeouts (gs : GameSettings) : Bool :=
  gs.timeoutsPerHalf > 0

/-- The `clampCount` closure of `initializeTimeoutState` (scripts.js:2556-2562):
non-numeric or negative values fall back; otherwise clamp to `max(0, bound)`. -/
def clampCount (value : Option Int) (fallback bound : Int) : Int :=
  match value with
  | none => fallback
  | some v => if v < 0 then fallback else min v (max 0 bound)

/-- `initializeTimeoutState` (scripts.js:2549-2582): build (or restore with
clamping) the timeout balances for both teams. -/
def initializeTimeoutState (gs : GameSettings) (savedState : Option SavedTimeoutState) :
    TimeoutState :=
  let defaultTotal := max 0 gs.timeoutsTotal
  let perHalfEnabled := usesPerHalfTimeouts gs
  let defaultHalf := if perHalfEnabled then min gs.timeoutsPerHalf defaultTotal else defaultTotal
  let createState := fun (source : Option SavedTeamTimeouts) =>
    let totalRemaining := clampCount (source.bind (·.totalRemaining)) defaultTotal defaultTotal
    let halfRemaining :=
      if perHalfEnabled then clampCount (source.bind (·.halfRemaining)) defaultHalf defaultHalf
      else totalRemaining
    TeamTimeouts.mk totalRemaining halfRemaining
  { A := createState (savedState.bind (·.A))
    B := createState (savedState.bind (·.B)) }

/-- The `normalize` closure of `adjustTimeoutCountsForEdit`
(scripts.js:2675-2682): clamp below at 0 always, above at `bound` only when
`bound` is a finite positive number. -/
def normalizeCount (value bound : Int) : Int :=
  let bounded := max 0 value
  if bound ≤ 0 then bounded else min bounded bound

/-- `adjustTimeoutCountsForEdit` (scripts.js:2674-2702): credit the old team
and debit the new team when a timeout event is reassigned. -/
def adjustTimeoutCountsForEdit (gs : GameSettings) (ts : TimeoutState)
    (oldTeam newTeam : Option Team) : TimeoutState :=
  let perHalfEnabled := usesPerHalfTimeouts gs
  let credit := fun (state : TeamTimeouts) =>
    let totalRemaining := normalizeCount (state.totalRemaining + 1) gs.timeoutsTotal
    let halfRemaining :=
      if perHalfEnabled then normalizeCount (state.halfRemaining + 1) gs.timeoutsPerHalf
      else totalRemaining
    TeamTimeouts.mk totalRemaining halfRemaining
  let debit := fun (state : TeamTimeouts) =>
    let totalRemaining := normalizeCount (state.totalRemaining - 1) gs.timeoutsTotal
    let halfRemaining :=
      if perHalfEnabled then normalizeCount (state.halfRemaining - 1) gs.timeoutsPerHalf
      else totalRemaining
    TeamTimeouts.mk totalRemaining halfRemaining
  let afterOld :=
    match oldTeam with
    | some Team.A => { ts with A := credit ts.A }
    | some Team.B => { ts with B := credit ts.B }
    | none => ts
  match newTeam with
  | some Team.A => { afterOld with A := debit afterOld.A }
  | some Team.B => { afterOld with B := debit afterOld.B }
  | none => afterOld

/-- Read the balances of one team. -/
def TimeoutState.team (ts : TimeoutState) : Team → TeamTimeouts
  | Team.A => ts.A
  | Team.B => ts.B

/-- Replace the balances of one team. -/
def TimeoutState.setTeam (ts : TimeoutState) (t : Team) (v : TeamTimeouts) : TimeoutState :=
  match t with
  | Team.A => { ts with A := v }
  | Team.B => { ts with B := v }

end Scorekeeper

namespace Scorekeeper

/-- The mutable application state of `ScorekeeperApp` (constructor,
scripts.js:1046-1096) restricted to the fields the claims concern, together
with the two team-name DOM fields and the roster cache (`dataManager.teamsData`).
Halftime reasons and the pending flag are the strings 'manual' / 'score' /
'clock' / 'restored' used by the source. -/
structure AppState where
  teamAName : String
  teamBName : String
  teamAScore : Nat
  teamBScore : Nat
  scoreLogs : List LogEntry
  gameSettings : GameSettings
  timeoutState : TimeoutState
  abbaStart : AbbaStart
  matchStarted : Bool
  halftimeTriggered : Bool
  halftimeAutoSuppressed : Bool
  halftimePendingReason : Option String
  halftimeReasonResolved : Option String
  currentHalftimeEditID : Option String
  hardCapReached : Bool
  gameStoppageActive : Bool
  teamsData : List (String × List String)
deriving DecidableEq, Repr

/-- `getLogType` (scripts.js:2273-2280) on entries created by the app:
the stored `type`. -/
def getLogType (e : LogEntry) : LogType :=
  e.type

/-- `isScoreLog` (scripts.js:2282-2284). -/
def isScoreLog (e : LogEntry) : Bool :=
  getLogType e = LogType.score

/-- `getTeamLetterFromLog` (scripts.js:2286-2297): the stored `TeamLetter` if
present, otherwise infer the side by comparing the stored team name against
the current dropdown values. -/
def getTeamLetterFromLog (teamAName teamBName : String) (e : LogEntry) : Option Team :=
  match e.TeamLetter with
  | some t => some t
  | none =>
    let candidate := if e.TeamName ≠ "" then e.TeamName else e.Team
    if candidate = teamAName then some Team.A
    else if candidate = teamBName then some Team.B
    else none

/-- `createLogObject` (scripts.js:2846-2876) with no overrides: the base score
log.  `timeStr` is the display wall-clock string. -/
def createLogObject (teamAName teamBName : String) (scoreID : String)
    (teamLetter : Option Team) (timeStr scorer assist : String) : LogEntry :=
  let gameID := teamAName ++ " vs " ++ teamBName
  let teamName :=
    match teamLetter with
    | some Team.A => teamAName
    | some Team.B => teamBName
    | none => ""
  { scoreID := scoreID
    GameID := gameID
    Time := timeStr
    Team := teamName
    TeamName := teamName
    TeamLetter := teamLetter
    Score := scorer
    Assist := assist
    type := LogType.score
    Event := ""
    EventType := getEventTypeLabel LogType.score
    HalftimeReason := none }

/-- The log entry built by `recordSpecialEvent` (scripts.js:1997-2031):
`createLogObject` with the special-event overrides merged in. -/
def specialEventLog (teamAName teamBName : String) (type : LogType)
    (teamLetter : Option Team) (halftimeReason : Option String) (nowMs : Nat) : LogEntry :=
  let scoreID := jsNumToString nowMs
  let base := createLogObject teamAName teamBName scoreID teamLetter
    (jsNumToString nowMs) "" ""
  { base with
    type := type
    Event := specialEventDisplayLabel type
    EventType := getEventTypeLabel type
    HalftimeReason := halftimeReason
    Team := if teamLetter.isNone then "" else base.Team
    TeamName := if teamLetter.isNone then "" else base.TeamName
    TeamLetter := if teamLetter.isNone then none else base.TeamLetter }

/-- `recordSpecialEvent` (scripts.js:1997-2041): append the special-event log
entry; returns the state and the entry (for `currentHalftimeEditID`). -/
def recordSpecialEvent (s : AppState) (type : LogType) (teamLetter : Option Team)
    (halftimeReason : Option String) (nowMs : Nat) : AppState × LogEntry :=
  let logEntry := specialEventLog s.teamAName s.teamBName type teamLetter halftimeReason nowMs
  ({ s with scoreLogs := s.scoreLogs ++ [logEntry] }, logEntry)

/-- The scoreboard fold of `rebuildTableAndCounters` (scripts.js:3374-3384):
count score-type entries by team letter. -/
def scoreboardStep (teamAName teamBName : String) (acc : Nat × Nat) (e : LogEntry) :
    Nat × Nat :=
  if isScoreLog e then
    match getTeamLetterFromLog teamAName teamBName e with
    | some Team.A => (acc.1 + 1, acc.2)
    | some Team.B => (acc.1, acc.2 + 1)
    | none => acc
  else acc

/-- Scoreboard recomputed from the full log (the counter part of
`rebuildTableAndCounters`, scripts.js:3362-3401). -/
def computeScoreboard (teamAName teamBName : String) (logs : List LogEntry) : Nat × Nat :=
  logs.foldl (scoreboardStep teamAName teamBName) (0, 0)

/-- `checkForScoreCap` (scripts.js:2043-2061): set or clear the hard-cap flag
from the current scores (clock side effects omitted). -/
def checkForScoreCap (s : AppState) : AppState :=
  let CAP : Nat := 15
  let reached := CAP ≤ s.teamAScore ∨ CAP ≤ s.teamBScore
  if reached ∧ ¬s.hardCapReached then { s with hardCapReached := true }
  else if ¬reached ∧ s.hardCapReached then { s with hardCapReached := false }
  else s

/-- `updateHalftimeTracking` (scripts.js:1872-1887): re-derive the halftime
flags from the log. -/
def updateHalftimeTracking (s : AppState) : AppState :=
  let halftimeLogs := s.scoreLogs.filter (fun log => getLogType log = LogType.halftime)
  let latest : Option LogEntry := halftimeLogs.getLast?
  let halftimeTriggered := latest.isSome
  let s := { s with
    halftimeTriggered := halftimeTriggered
    currentHalftimeEditID := Option.map (fun log : LogEntry => log.scoreID) latest }
  let s := if halftimeTriggered then { s with halftimePendingReason := none } else s
  match latest with
  | none => { s with halftimeReasonResolved := none }
  | some latestLog =>
    if s.halftimeReasonResolved.isNone then
      { s with halftimeReasonResolved := some (latestLog.HalftimeReason.getD "restored") }
    else s

/-- `handleHalftime` (scripts.js:1804-1870): returns whether halftime was
recorded, and the updated state (notifications and the secondary clock reset
omitted).  `reason` is 'manual', 'score' or 'clock'. -/
def handleHalftime (s : AppState) (reason : String) (nowMs : Nat) : Bool × AppState :=
  if s.halftimeTriggered then (false, s)
  else if ¬s.matchStarted then (false, s)
  else
    let ts := s.timeoutState
    let ts :=
      if usesPerHalfTimeouts s.gameSettings then
        let defaultHalf := min s.gameSettings.timeoutsPerHalf s.gameSettings.timeoutsTotal
        { A := { ts.A with halfRemaining := min defaultHalf ts.A.totalRemaining }
          B := { ts.B with halfRemaining := min defaultHalf ts.B.totalRemaining } }
      else
        { A := { ts.A with halfRemaining := ts.A.totalRemaining }
          B := { ts.B with halfRemaining := ts.B.totalRemaining } }
    let s := { s with timeoutState := ts, halftimeReasonResolved := some reason }
    let (s, halftimeLog) := recordSpecialEvent s LogType.halftime none (some reason) nowMs
    let s := { s with
      halftimeTriggered := true
      currentHalftimeEditID := some halftimeLog.scoreID }
    let s := updateHalftimeTracking s
    (true, { s with halftimePendingReason := none, halftimeAutoSuppressed := false })

/-- `CONFIG.HALFTIME_SCORE_TARGET` (scripts.js:16). -/
def HALFTIME_SCORE_TARGET : Nat := 8

/-- `maybeTriggerHalftimeByScore` (scripts.js:1889-1915). -/
def maybeTriggerHalftimeByScore (s : AppState) (nowMs : Nat) : AppState :=
  if ¬s.matchStarted ∨ s.halftimeTriggered then s
  else if s.halftimeReasonResolved.isSome then s
  else
    let leadingScore := max s.teamAScore s.teamBScore
    if s.halftimeAutoSuppressed then
      if leadingScore < HALFTIME_SCORE_TARGET then
        { s with halftimeAutoSuppressed := false }
      else s
    else if HALFTIME_SCORE_TARGET ≤ leadingScore then
      (handleHalftime s "score" nowMs).2
    else s

/-- `maybeTriggerHalftimeByTime` (scripts.js:1931-1962): the clock trigger only
marks the pending reason, it never declares halftime itself.  `remainingMs`
is the primary clock's remaining time in milliseconds. -/
def maybeTriggerHalftimeByTime (s : AppState) (remainingMs : Nat) : AppState :=
  if ¬s.matchStarted ∨ s.halftimeTriggered then s
  else
    let thresholdMinutes := max 0 (s.gameSettings.matchDuration - s.gameSettings.halftimeDuration)
    if thresholdMinutes ≤ 0 then s
    else
      let thresholdMs := thresholdMinutes * 60 * 1000
      if s.halftimeAutoSuppressed then
        if thresholdMs < (remainingMs : Int) then { s with halftimeAutoSuppressed := false }
        else s
      else if (remainingMs : Int) ≤ thresholdMs then
        if s.halftimePendingReason ≠ some "clock" then
          { s with halftimePendingReason := some "clock" }
        else s
      else s

/-- `attemptPendingHalftime` (scripts.js:1964-1976). -/
def attemptPendingHalftime (s : AppState) (nowMs : Nat) : AppState :=
  if ¬s.matchStarted ∨ s.halftimeTriggered then s
  else if s.halftimeReasonResolved.isSome then s
  else if s.halftimePendingReason ≠ some "clock" then s
  else
    let (triggered, s') := handleHalftime s "clock" nowMs
    if triggered then s' else s

end Scorekeeper

namespace Scorekeeper

/-- `DataManager.updateScoreLog` (scripts.js:470-479): apply `f` to the first
entry whose `scoreID` matches; `none` when the id is not found. -/
def updateScoreLogWith (logs : List LogEntry) (scoreID : String) (f : LogEntry → LogEntry) :
    Option (List LogEntry) :=
  match logs with
  | [] => none
  | e :: rest =>
    if e.scoreID = scoreID then some (f e :: rest)
    else Option.map (fun tail => e :: tail) (updateScoreLogWith rest scoreID f)

/-- `DataManager.removeScoreLog` (scripts.js:515-522): remove the first entry
whose `scoreID` matches, returning it and the remaining list. -/
def removeScoreLog (logs : List LogEntry) (scoreID : String) :
    Option (LogEntry × List LogEntry) :=
  match logs with
  | [] => none
  | e :: rest =>
    if e.scoreID = scoreID then some (e, rest)
    else Option.map (fun p => (p.1, e :: p.2)) (removeScoreLog rest scoreID)

/-- `DataManager.getScoreLog` (scripts.js:484-486). -/
def getScoreLog (logs : List LogEntry) (scoreID : String) : Option LogEntry :=
  logs.find? (fun e => e.scoreID = scoreID)

/-- `addNewScore` (scripts.js:2800-2824): increment the side's counter, append
the score log, re-check the cap and evaluate the halftime triggers. -/
def addNewScore (s : AppState) (team : Team) (scorer assist : String) (nowMs : Nat) :
    AppState :=
  let s :=
    match team with
    | Team.A => { s with teamAScore := s.teamAScore + 1 }
    | Team.B => { s with teamBScore := s.teamBScore + 1 }
  let newScoreID := jsNumToString nowMs
  let logEntry := createLogObject s.teamAName s.teamBName newScoreID (some team)
    (jsNumToString nowMs) scorer assist
  let s := { s with scoreLogs := s.scoreLogs ++ [logEntry] }
  let s := checkForScoreCap s
  let s := maybeTriggerHalftimeByScore s nowMs
  attemptPendingHalftime s nowMs

/-- The acceptance guards on the add-score path: `openPopup`
(scripts.js:2707-2715: match started, cap not reached) and `handleSaveScore`
(scripts.js:2779-2795: scorer and assist selected). -/
def handleAddScore (s : AppState) (team : Team) (scorer assist : String) (nowMs : Nat) :
    AppState :=
  if ¬s.matchStarted then s
  else if s.hardCapReached then s
  else if scorer = "" ∨ assist = "" then s
  else addNewScore s team scorer assist nowMs

/-- `updateExistingScore` (scripts.js:2829-2841): update scorer/assist of an
existing entry; not found leaves the state unchanged. -/
def updateExistingScore (s : AppState) (scoreID scorer assist : String) : AppState :=
  match updateScoreLogWith s.scoreLogs scoreID
      (fun e => { e with Score := scorer, Assist := assist }) with
  | none => s
  | some logs => { s with scoreLogs := logs }

/-- Rejection notices of `handleTimeout` (scripts.js:2628-2653). -/
inductive TimeoutRejection where
  | matchNotStarted
  | stoppageActive
  | noTimeoutsRemaining
  | noTimeoutsRemainingThisHalf
deriving DecidableEq, Repr

/-- `handleTimeout` (scripts.js:2628-2672): validate, decrement the balances,
append the timeout event (secondary-clock reset omitted).  Returns the new
state and the rejection notice, if any. -/
def handleTimeout (s : AppState) (team : Team) (nowMs : Nat) :
    AppState × Option TimeoutRejection :=
  if ¬s.matchStarted then (s, some TimeoutRejection.matchNotStarted)
  else if s.gameStoppageActive then (s, some TimeoutRejection.stoppageActive)
  else
    let perHalfEnabled := usesPerHalfTimeouts s.gameSettings
    let state := s.timeoutState.team team
    if state.totalRemaining ≤ 0 then (s, some TimeoutRejection.noTimeoutsRemaining)
    else if perHalfEnabled ∧ state.halfRemaining ≤ 0 then
      (s, some TimeoutRejection.noTimeoutsRemainingThisHalf)
    else
      let totalRemaining := max 0 (state.totalRemaining - 1)
      let halfRemaining :=
        if perHalfEnabled then max 0 (state.halfRemaining - 1) else totalRemaining
      let s := { s with timeoutState :=
        s.timeoutState.setTeam team (TeamTimeouts.mk totalRemaining halfRemaining) }
      ((recordSpecialEvent s LogType.timeout (some team) none nowMs).1, none)

/-- `rebuildTableAndCounters` (scripts.js:3362-3401): recompute the scoreboard
by folding over the log, then re-run the cap check, the halftime tracking and
the score trigger. -/
def rebuildTableAndCounters (s : AppState) (nowMs : Nat) : AppState :=
  let sb := computeScoreboard s.teamAName s.teamBName s.scoreLogs
  let s := { s with teamAScore := sb.1, teamBScore := sb.2 }
  let s := checkForScoreCap s
  let s := updateHalftimeTracking s
  maybeTriggerHalftimeByScore s nowMs

/-- `handleDeleteScore` (scripts.js:3331-3357) with the edit popup open on
`scoreID`: remove the entry and rebuild. -/
def handleDeleteScore (s : AppState) (scoreID : String) (nowMs : Nat) : AppState :=
  match removeScoreLog s.scoreLogs scoreID with
  | none => s
  | some (_, rest) => rebuildTableAndCounters { s with scoreLogs := rest } nowMs

/-- `handleTimeoutEditSave` (scripts.js:2139-2188): reassign a timeout event to
`newTeam`, adjusting the balances when the side actually changes, then rebuild. -/
def handleTimeoutEditSave (s : AppState) (scoreID : String) (newTeam : Team) (nowMs : Nat) :
    AppState :=
  match getScoreLog s.scoreLogs scoreID with
  | none => s
  | some existingLog =>
    if existingLog.type ≠ LogType.timeout then s
    else
      let teamName := match newTeam with | Team.A => s.teamAName | Team.B => s.teamBName
      if teamName = "" then s
      else
        let oldTeamLetter := existingLog.TeamLetter
        match updateScoreLogWith s.scoreLogs scoreID (fun e =>
            { e with TeamLetter := some newTeam, Team := teamName, TeamName := teamName }) with
        | none => s
        | some logs =>
          let s := { s with scoreLogs := logs }
          let s :=
            if oldTeamLetter ≠ some newTeam then
              { s with timeoutState :=
                (adjustTimeoutCountsForEdit s.gameSettings s.timeoutState
                  oldTeamLetter (some newTeam)) }
            else s
          rebuildTableAndCounters s nowMs

/-- `handleHalftimeDelete` (scripts.js:2220-2251): delete the halftime entry
the edit popup is open on, mark auto-halftime suppressed, and rebuild. -/
def handleHalftimeDelete (s : AppState) (nowMs : Nat) : AppState :=
  match s.currentHalftimeEditID with
  | none => s
  | some scoreID =>
    match removeScoreLog s.scoreLogs scoreID with
    | none => s
    | some (_, rest) =>
      let s := { s with
        scoreLogs := rest
        halftimeAutoSuppressed := true
        halftimePendingReason := none
        halftimeTriggered := false
        halftimeReasonResolved := none
        currentHalftimeEditID := none }
      rebuildTableAndCounters s nowMs

/-- `handleStoppageToggle` (scripts.js:2063-2083): flip the stoppage flag and
record a stoppage event when activating (clock effects omitted). -/
def handleStoppageToggle (s : AppState) (nowMs : Nat) : AppState :=
  let s := { s with gameStoppageActive := ¬s.gameStoppageActive }
  if s.gameStoppageActive then (recordSpecialEvent s LogType.stoppage none none nowMs).1
  else s

/-- `startMatch` (scripts.js:1766-1802): validate, reset the per-match flags
and record the match-start event (primary clock omitted). -/
def startMatch (s : AppState) (nowMs : Nat) : AppState :=
  if s.matchStarted then s
  else if s.teamAName = "" ∨ s.teamBName = "" then s
  else if s.gameStoppageActive then s
  else
    let s := { s with
      halftimeTriggered := false
      currentHalftimeEditID := none
      halftimePendingReason := none
      halftimeAutoSuppressed := false
      halftimeReasonResolved := none
      hardCapReached := false
      matchStarted := true }
    (recordSpecialEvent s LogType.matchstart none none nowMs).1

/-- `handleMainTimerTick` (scripts.js:1978-1980): a primary-clock tick only
evaluates the clock-based halftime trigger. -/
def handleMainTimerTick (s : AppState) (remainingMs : Nat) : AppState :=
  maybeTriggerHalftimeByTime s remainingMs

/-- The manual halftime button (`handleHalftime` with default options). -/
def handleManualHalftime (s : AppState) (nowMs : Nat) : AppState :=
  (handleHalftime s "manual" nowMs).2

end Scorekeeper

namespace Scorekeeper

/-- The constructor defaults of `gameSettings` (scripts.js:1056-1063), which
`loadGameState` and `resetGameState` (scripts.js:265-289, 534-559) repeat. -/
def defaultGameSettings : GameSettings :=
  { matchDuration := 100
    halftimeDuration := 55
    halftimeBreakDuration := 7
    timeoutDuration := 75
    timeoutsTotal := 2
    timeoutsPerHalf := 0 }

/-- The freshly constructed application state (scripts.js:1046-1096); the
constructor's `halfRemaining` uses `timeoutsPerHalf || timeoutsTotal`. -/
def initialState (teamAName teamBName : String) : AppState :=
  let gs := defaultGameSettings
  let half := if gs.timeoutsPerHalf = 0 then gs.timeoutsTotal else gs.timeoutsPerHalf
  { teamAName := teamAName
    teamBName := teamBName
    teamAScore := 0
    teamBScore := 0
    scoreLogs := []
    gameSettings := gs
    timeoutState :=
      { A := { totalRemaining := gs.timeoutsTotal, halfRemaining := half }
        B := { totalRemaining := gs.timeoutsTotal, halfRemaining := half } }
    abbaStart := AbbaStart.M
    matchStarted := false
    halftimeTriggered := false
    halftimeAutoSuppressed := false
    halftimePendingReason := none
    halftimeReasonResolved := none
    currentHalftimeEditID := none
    hardCapReached := false
    gameStoppageActive := false
    teamsData := [] }

/-- One accepted-or-rejected operator input (button press / field edit / clock
tick); each constructor carries the wall-clock reading the handler would see. -/
inductive Action where
  | startMatch (nowMs : Nat)
  | addScore (team : Team) (scorer assist : String) (nowMs : Nat)
  | editScore (scoreID scorer assist : String)
  | deleteScore (scoreID : String) (nowMs : Nat)
  | callTimeout (team : Team) (nowMs : Nat)
  | reassignTimeout (scoreID : String) (newTeam : Team) (nowMs : Nat)
  | declareHalftime (nowMs : Nat)
  | deleteHalftime (nowMs : Nat)
  | toggleStoppage (nowMs : Nat)
  | clockTick (remainingMs : Nat)
deriving DecidableEq, Repr

/-- Dispatch one operator input to its handler. -/
def applyAction (s : AppState) : Action → AppState
  | Action.startMatch n => startMatch s n
  | Action.addScore t sc a n => handleAddScore s t sc a n
  | Action.editScore id sc a => updateExistingScore s id sc a
  | Action.deleteScore id n => handleDeleteScore s id n
  | Action.callTimeout t n => (handleTimeout s t n).1
  | Action.reassignTimeout id t n => handleTimeoutEditSave s id t n
  | Action.declareHalftime n => handleManualHalftime s n
  | Action.deleteHalftime n => handleHalftimeDelete s n
  | Action.toggleStoppage n => handleStoppageToggle s n
  | Action.clockTick r => handleMainTimerTick s r

/-- Run a sequence of operator inputs. -/
def applyActions (s : AppState) (acts : List Action) : AppState :=
  acts.foldl applyAction s

end Scorekeeper

namespace Scorekeeper

/-- `Utils.toCSVLine` (scripts.js:116-124): join fields with commas,
double-quoting a field that contains a quote, comma or line break and doubling
its quotes. -/
def toCSVLine (fields : List String) : String :=
  String.intercalate ","
    (fields.map (fun v =>
      if v.data.any (fun c => c = '"' ∨ c = ',' ∨ c = '\n' ∨ c = '\r') then
        "\"" ++ String.mk (v.data.flatMap (fun c => if c = '"' then ['"', '"'] else [c])) ++ "\""
      else v))

/-- The per-log CSV field list of `handleSubmitScore` (scripts.js:3469-3478).
`log.Time || ''`, `log.Team || ''`, `log.Score || ''`, `log.Assist || ''` are
the identity on the always-present string fields and are written plainly. -/
def csvRowFields (gameID : String) (log : LogEntry) : List String :=
  let eventType := if log.EventType = "" then getEventTypeLabel log.type else log.EventType
  [ if log.GameID = "" then gameID else log.GameID,
    log.Time,
    if eventType = "" then "" else eventType,
    log.Team,
    log.Score,
    log.Assist ]

/-- The CSV header of `handleSubmitScore` (scripts.js:3467). -/
def csvHeader : List String :=
  ["GameID", "Time", "Event", "Team", "Score", "Assist"]

/-- The full list of CSV lines built by `handleSubmitScore`
(scripts.js:3466-3479): header first, then one line per log entry in
insertion order. -/
def submitCSVLines (teamAName teamBName : String) (scoreLogs : List LogEntry) :
    List String :=
  let gameID := teamAName ++ " vs " ++ teamBName
  toCSVLine csvHeader :: scoreLogs.map (fun log => toCSVLine (csvRowFields gameID log))

end Scorekeeper

namespace Scorekeeper

/-- The persisted game-state blob (`loadGameState` / `resetGameState`,
scripts.js:265-289 and 534-559), restricted to the fields the restore
protocol reads. -/
structure GameStateBlob where
  teamAScore : Nat
  teamBScore : Nat
  teamAName : String
  teamBName : String
  matchDuration : Int
  halftimeDuration : Int
  halftimeBreakDuration : Int
  timeoutDuration : Int
  timeoutsTotal : Int
  timeoutsPerHalf : Int
  abbaStart : AbbaStart
  stoppageActive : Bool
  timeoutState : SavedTimeoutState
  scoreLogs : List LogEntry
  matchStarted : Bool
deriving DecidableEq, Repr

/-- The blob written by `DataManager.resetGameState` (scripts.js:534-562). -/
def defaultGameStateBlob : GameStateBlob :=
  { teamAScore := 0
    teamBScore := 0
    teamAName := ""
    teamBName := ""
    matchDuration := 100
    halftimeDuration := 55
    halftimeBreakDuration := 7
    timeoutDuration := 75
    timeoutsTotal := 2
    timeoutsPerHalf := 0
    abbaStart := AbbaStart.M
    stoppageActive := false
    timeoutState :=
      { A := some { totalRemaining := some 2, halfRemaining := some 2 }
        B := some { totalRemaining := some 2, halfRemaining := some 2 } }
    scoreLogs := []
    matchStarted := false }

/-- The refusal branch of `checkAndRestoreState` (scripts.js:1211-1232): the
operator declines the restore prompt for a fresh (< 24 h) snapshot.
`resetGameState` replaces the persisted blob with defaults and clears the
in-memory log; the in-memory settings and flags are then set to the built-in
defaults.  The roster cache (`dataManager.teamsData`) is not touched. -/
def refuseRestore (s : AppState) (_blob : GameStateBlob) : AppState × GameStateBlob :=
  let s := { s with scoreLogs := [] }
  let s := { s with gameSettings :=
    { matchDuration := 100
      halftimeDuration := 55
      halftimeBreakDuration := 7
      timeoutDuration := 75
      timeoutsTotal := 2
      timeoutsPerHalf := 0 } }
  let s := { s with abbaStart := AbbaStart.M }
  let s := { s with gameStoppageActive := false }
  let s := { s with matchStarted := false }
  let s := { s with hardCapReached := false }
  (s, defaultGameStateBlob)

end Scorekeeper

namespace Scorekeeper

theorem recordSpecialEvent_fst (s : AppState) (type : LogType) (teamLetter : Option Team)
    (halftimeReason : Option String) (nowMs : Nat) :
    (recordSpecialEvent s type teamLetter halftimeReason nowMs).1 =
      { s with scoreLogs := s.scoreLogs ++
        [specialEventLog s.teamAName s.teamBName type teamLetter halftimeReason nowMs] } :=
  rfl

theorem updateHalftimeTracking_frame (s : AppState) :
    (updateHalftimeTracking s).timeoutState = s.timeoutState ∧
    (updateHalftimeTracking s).scoreLogs = s.scoreLogs ∧
    (updateHalftimeTracking s).teamAScore = s.teamAScore ∧
    (updateHalftimeTracking s).teamBScore = s.teamBScore ∧
    (updateHalftimeTracking s).teamAName = s.teamAName ∧
    (updateHalftimeTracking s).teamBName = s.teamBName ∧
    (updateHalftimeTracking s).gameSettings = s.gameSettings := by
  simp only [updateHalftimeTracking]
  split <;> split <;> (try split) <;> simp_all

theorem checkForScoreCap_frame (s : AppState) :
    (checkForScoreCap s).timeoutState = s.timeoutState ∧
    (checkForScoreCap s).scoreLogs = s.scoreLogs ∧
    (checkForScoreCap s).teamAScore = s.teamAScore ∧
    (checkForScoreCap s).teamBScore = s.teamBScore ∧
    (checkForScoreCap s).teamAName = s.teamAName ∧
    (checkForScoreCap s).teamBName = s.teamBName ∧
    (checkForScoreCap s).gameSettings = s.gameSettings := by
  simp only [checkForScoreCap]
  split <;> (try split) <;> simp_all

end Scorekeeper

namespace Scorekeeper

theorem min_min_right_le {p c t : Int} (h : t ≤ c) : min (min p c) t = min p t := by
  rcases le_total p c with hpc | hpc <;> rcases le_total p t with hpt | hpt <;>
    simp [min_def] <;> omega

/-- C2: for start value M, the labels of scoring indices 0..6 are exactly
M, F, F, M, M, F, F (the function does not depend on which team scored); for
start value None every label is the empty string. -/
theorem abba_sequence_deterministic :
    (List.range 7).map (computeAbbaForIndex AbbaStart.M) = ["M", "F", "F", "M", "M", "F", "F"]
    ∧ ∀ index : Nat, computeAbbaForIndex AbbaStart.NONE index = "" := by
  refine ⟨by decide, fun index => ?_⟩
  simp [computeAbbaForIndex]

/-- A snapshot blob whose operator-configured match duration differs from the
built-in default. -/
def staleBlob : GameStateBlob :=
  { defaultGameStateBlob with matchDuration := 60, timeoutsTotal := 4, abbaStart := AbbaStart.F }

/-- C5 counterexample: refusing the restore prompt does NOT leave the
snapshot's MatchConfig unchanged — the 60-minute match duration, the
4-timeout allotment and the F gender-sequence start of the snapshot are all
replaced by the built-in defaults (100 / 2 / M). -/
theorem refuse_restore_discards_match_config :
    (refuseRestore (initialState "Red" "Blue") staleBlob).1.gameSettings.matchDuration = 100
    ∧ staleBlob.matchDuration = 60
    ∧ (refuseRestore (initialState "Red" "Blue") staleBlob).2.matchDuration
        ≠ staleBlob.matchDuration
    ∧ (refuseRestore (initialState "Red" "Blue") staleBlob).2.timeoutsTotal
        ≠ staleBlob.timeoutsTotal
    ∧ (refuseRestore (initialState "Red" "Blue") staleBlob).1.abbaStart
        ≠ staleBlob.abbaStart := by
  refine ⟨rfl, rfl, by decide, by decide, by decide⟩

/-- C5 amended: on refusal the snapshot is discarded and a fresh match is
initialized with the BUILT-IN default MatchConfig and gender-sequence start
(not the snapshot's values); only the independently-cached roster data is
left unchanged, and the persisted blob is reset to the defaults. -/
theorem refuse_restore_resets_all_but_roster (s : AppState) (blob : GameStateBlob) :
    (refuseRestore s blob).1.teamsData = s.teamsData
    ∧ (refuseRestore s blob).1.gameSettings = defaultGameSettings
    ∧ (refuseRestore s blob).1.abbaStart = AbbaStart.M
    ∧ (refuseRestore s blob).1.scoreLogs = []
    ∧ (refuseRestore s blob).1.matchStarted = false
    ∧ (refuseRestore s blob).1.gameStoppageActive = false
    ∧ (refuseRestore s blob).1.hardCapReached = false
    ∧ (refuseRestore s blob).2 = defaultGameStateBlob :=
  ⟨rfl, rfl, rfl, rfl, rfl, rfl, rfl, rfl⟩

/-- C6 counterexample: the CSV row of a Score-kind entry carries the label
"Score" in its Event column, not the empty string the claim asserts. -/
theorem score_csv_event_field_not_empty :
    csvRowFields "Red vs Blue"
        (createLogObject "Red" "Blue" "1000" (some Team.A) "1000" "Alice" "Bob")
      = ["Red vs Blue", "1000", "Score", "Red", "Alice", "Bob"]
    ∧ ("Score" : String) ≠ "" := by
  refine ⟨by decide, by decide⟩

/-- C6 amended: the exported CSV has the header GameID,Time,Event,Team,Score,
Assist and one row per Event Log entry in insertion order; the Event column of
each row is exactly the kind's `EventType` label — "Score" for Score entries
and "TimeOut" / "HalfTime" / "Stoppage" / "Start" for Timeout / Halftime /
Stoppage / MatchStart entries. -/
theorem submit_csv_layout (nA nB : String) (logs : List LogEntry)
    (hET : ∀ e ∈ logs, e.EventType = getEventTypeLabel e.type) :
    submitCSVLines nA nB logs
      = toCSVLine csvHeader ::
          logs.map (fun e => toCSVLine (csvRowFields (nA ++ " vs " ++ nB) e))
    ∧ toCSVLine csvHeader = "GameID,Time,Event,Team,Score,Assist"
    ∧ ∀ e ∈ logs, csvRowFields (nA ++ " vs " ++ nB) e
        = [if e.GameID = "" then nA ++ " vs " ++ nB else e.GameID,
           e.Time, getEventTypeLabel e.type, e.Team, e.Score, e.Assist] := by
  refine ⟨rfl, by decide, fun e he => ?_⟩
  have hE := hET e he
  cases htype : e.type <;>
    simp [csvRowFields, hE, htype, getEventTypeLabel]

theorem submit_csv_layout_witness :
    (∀ e ∈ [specialEventLog "Red" "Blue" LogType.timeout (some Team.A) none 5],
        e.EventType = getEventTypeLabel e.type)
    ∧ csvRowFields ("Red" ++ " vs " ++ "Blue")
        (specialEventLog "Red" "Blue" LogType.timeout (some Team.A) none 5)
      = [if (specialEventLog "Red" "Blue" LogType.timeout (some Team.A) none 5).GameID = ""
          then "Red" ++ " vs " ++ "Blue"
          else (specialEventLog "Red" "Blue" LogType.timeout (some Team.A) none 5).GameID,
         (specialEventLog "Red" "Blue" LogType.timeout (some Team.A) none 5).Time,
         getEventTypeLabel (specialEventLog "Red" "Blue" LogType.timeout (some Team.A) none 5).type,
         (specialEventLog "Red" "Blue" LogType.timeout (some Team.A) none 5).Team,
         (specialEventLog "Red" "Blue" LogType.timeout (some Team.A) none 5).Score,
         (specialEventLog "Red" "Blue" LogType.timeout (some Team.A) none 5).Assist] :=
  ⟨by decide,
   (submit_csv_layout "Red" "Blue"
      [specialEventLog "Red" "Blue" LogType.timeout (some Team.A) none 5]
      (by decide)).2.2 _ (by simp)⟩

end Scorekeeper

namespace Scorekeeper

/-- A started match in which team A has exhausted all its timeouts. -/
def initialStateNoTO : AppState :=
  { initialState "Red" "Blue" with
    matchStarted := true
    timeoutState :=
      { A := { totalRemaining := 0, halfRemaining := 0 }
        B := { totalRemaining := 2, halfRemaining := 2 } } }

/-- C7: a CallTimeout for a team whose totalRemaining is 0 (or, when per-half
limiting is enabled, whose halfRemaining is 0) is rejected with a
no-timeouts-remaining notice and mutates nothing: the state — in particular
the Event Log and both teams' balances — is returned unchanged. -/
theorem timeout_rejected_when_exhausted (s : AppState) (team : Team) (nowMs : Nat)
    (hStarted : s.matchStarted = true) (hStoppage : s.gameStoppageActive = false)
    (hExhausted : (s.timeoutState.team team).totalRemaining ≤ 0
      ∨ (usesPerHalfTimeouts s.gameSettings = true
          ∧ (s.timeoutState.team team).halfRemaining ≤ 0)) :
    (handleTimeout s team nowMs).1 = s
    ∧ (handleTimeout s team nowMs).1.scoreLogs = s.scoreLogs
    ∧ (handleTimeout s team nowMs).1.timeoutState = s.timeoutState
    ∧ ((handleTimeout s team nowMs).2 = some TimeoutRejection.noTimeoutsRemaining
        ∨ (handleTimeout s team nowMs).2 = some TimeoutRejection.noTimeoutsRemainingThisHalf) := by
  have hmain : (handleTimeout s team nowMs).1 = s
      ∧ ((handleTimeout s team nowMs).2 = some TimeoutRejection.noTimeoutsRemaining
          ∨ (handleTimeout s team nowMs).2 = some TimeoutRejection.noTimeoutsRemainingThisHalf) := by
    by_cases htot : (s.timeoutState.team team).totalRemaining ≤ 0
    · simp [handleTimeout, hStarted, hStoppage, htot]
    · rcases hExhausted with h | ⟨hPH, hHalf⟩
      · exact absurd h htot
      · simp [handleTimeout, hStarted, hStoppage, htot, hPH, hHalf]
  exact ⟨hmain.1, by rw [hmain.1], by rw [hmain.1], hmain.2⟩

theorem timeout_rejected_when_exhausted_witness :
    ((initialStateNoTO.matchStarted = true)
      ∧ (initialStateNoTO.gameStoppageActive = false)
      ∧ ((initialStateNoTO.timeoutState.team Team.A).totalRemaining ≤ 0))
    ∧ (handleTimeout initialStateNoTO Team.A 99).1 = initialStateNoTO
    ∧ ((handleTimeout initialStateNoTO Team.A 99).2
          = some TimeoutRejection.noTimeoutsRemaining
        ∨ (handleTimeout initialStateNoTO Team.A 99).2
          = some TimeoutRejection.noTimeoutsRemainingThisHalf) :=
  ⟨⟨rfl, rfl, by decide⟩,
   (timeout_rejected_when_exhausted initialStateNoTO Team.A 99 rfl rfl
      (Or.inl (by decide))).1,
   (timeout_rejected_when_exhausted initialStateNoTO Team.A 99 rfl rfl
      (Or.inl (by decide))).2.2.2⟩

end Scorekeeper

namespace Scorekeeper

theorem handleHalftime_timeoutState (s : AppState) (reason : String) (nowMs : Nat)
    (hTrig : s.halftimeTriggered = false) (hStart : s.matchStarted = true) :
    (handleHalftime s reason nowMs).2.timeoutState =
      (if usesPerHalfTimeouts s.gameSettings then
        { A := { s.timeoutState.A with halfRemaining :=
            (min (min s.gameSettings.timeoutsPerHalf s.gameSettings.timeoutsTotal)
              s.timeoutState.A.totalRemaining) }
          B := { s.timeoutState.B with halfRemaining :=
            (min (min s.gameSettings.timeoutsPerHalf s.gameSettings.timeoutsTotal)
              s.timeoutState.B.totalRemaining) } }
      else
        { A := { s.timeoutState.A with halfRemaining := s.timeoutState.A.totalRemaining }
          B := { s.timeoutState.B with halfRemaining := s.timeoutState.B.totalRemaining } }) := by
  simp [handleHalftime, hTrig, hStart, recordSpecialEvent, updateHalftimeTracking_frame]

end Scorekeeper

namespace Scorekeeper

/-- C8: declaring halftime sets each team's halfRemaining to
min(perHalfAllotment, that team's current totalRemaining) when per-half
limiting is enabled (for balances within the configured total, which every
operation maintains), and to that team's totalRemaining when it is disabled;
a team with totalRemaining below the configured allotment therefore receives
the smaller value. -/
theorem halftime_resets_half_remaining (s : AppState) (reason : String) (nowMs : Nat)
    (hTrig : s.halftimeTriggered = false) (hStart : s.matchStarted = true)
    (hA : s.timeoutState.A.totalRemaining ≤ s.gameSettings.timeoutsTotal)
    (hB : s.timeoutState.B.totalRemaining ≤ s.gameSettings.timeoutsTotal) :
    (usesPerHalfTimeouts s.gameSettings = true →
      (handleHalftime s reason nowMs).2.timeoutState.A.halfRemaining
          = min s.gameSettings.timeoutsPerHalf s.timeoutState.A.totalRemaining
        ∧ (handleHalftime s reason nowMs).2.timeoutState.B.halfRemaining
          = min s.gameSettings.timeoutsPerHalf s.timeoutState.B.totalRemaining)
    ∧ (usesPerHalfTimeouts s.gameSettings = false →
      (handleHalftime s reason nowMs).2.timeoutState.A.halfRemaining
          = s.timeoutState.A.totalRemaining
        ∧ (handleHalftime s reason nowMs).2.timeoutState.B.halfRemaining
          = s.timeoutState.B.totalRemaining) := by
  rw [handleHalftime_timeoutState s reason nowMs hTrig hStart]
  constructor
  · intro hPH
    rw [if_pos hPH]
    exact ⟨min_min_right_le hA, min_min_right_le hB⟩
  · intro hPH
    rw [if_neg (by simp [hPH])]
    exact ⟨rfl, rfl⟩

/-- A started match with per-half limiting enabled (allotment 1) in which team
A has fewer total timeouts left (0) than the allotment. -/
def halftimeWitState : AppState :=
  { initialState "Red" "Blue" with
    matchStarted := true
    gameSettings := { defaultGameSettings with timeoutsPerHalf := 1 }
    timeoutState :=
      { A := { totalRemaining := 0, halfRemaining := 1 }
        B := { totalRemaining := 2, halfRemaining := 1 } } }

theorem halftime_resets_half_remaining_witness :
    (halftimeWitState.halftimeTriggered = false
      ∧ halftimeWitState.matchStarted = true
      ∧ halftimeWitState.timeoutState.A.totalRemaining
          ≤ halftimeWitState.gameSettings.timeoutsTotal
      ∧ halftimeWitState.timeoutState.B.totalRemaining
          ≤ halftimeWitState.gameSettings.timeoutsTotal)
    ∧ ((handleHalftime halftimeWitState "manual" 7).2.timeoutState.A.halfRemaining
        = min halftimeWitState.gameSettings.timeoutsPerHalf
            halftimeWitState.timeoutState.A.totalRemaining
      ∧ (handleHalftime halftimeWitState "manual" 7).2.timeoutState.B.halfRemaining
        = min halftimeWitState.gameSettings.timeoutsPerHalf
            halftimeWitState.timeoutState.B.totalRemaining) :=
  ⟨⟨rfl, rfl, by decide, by decide⟩,
   (halftime_resets_half_remaining halftimeWitState "manual" 7 rfl rfl
      (by decide) (by decide)).1 rfl⟩

end Scorekeeper

namespace Scorekeeper

/-- Range claimed for one team's balances: totalRemaining within
0..timeoutsTotal, and (when per-half limiting is enabled, i.e.
`0 < timeoutsPerHalf`) halfRemaining within 0..timeoutsPerHalf. -/
@[reducible] def TeamBoundsOK (gs : GameSettings) (t : TeamTimeouts) : Prop :=
  0 ≤ t.totalRemaining ∧ t.totalRemaining ≤ gs.timeoutsTotal
  ∧ (0 < gs.timeoutsPerHalf → 0 ≤ t.halfRemaining ∧ t.halfRemaining ≤ gs.timeoutsPerHalf)

/-- Both teams' balances within range. -/
@[reducible] def TimeoutBoundsOK (gs : GameSettings) (ts : TimeoutState) : Prop :=
  TeamBoundsOK gs ts.A ∧ TeamBoundsOK gs ts.B

theorem clampCount_mem (v : Option Int) (fb bound : Int) (h1 : 0 ≤ fb)
    (h2 : fb ≤ max 0 bound) :
    0 ≤ clampCount v fb bound ∧ clampCount v fb bound ≤ max 0 bound := by
  cases v with
  | none => exact ⟨h1, h2⟩
  | some x => simp only [clampCount]; omega

theorem normalizeCount_mem (v bound : Int) (hpos : 0 < bound) :
    0 ≤ normalizeCount v bound ∧ normalizeCount v bound ≤ bound := by
  simp only [normalizeCount]; omega

theorem initializeTimeoutState_bounds (gs : GameSettings) (saved : Option SavedTimeoutState)
    (hgs : 0 ≤ gs.timeoutsTotal) :
    TimeoutBoundsOK gs (initializeTimeoutState gs saved) := by
  have hA := clampCount_mem ((saved.bind (·.A)).bind (·.totalRemaining))
    (max 0 gs.timeoutsTotal) (max 0 gs.timeoutsTotal) (by omega) (by omega)
  have hB := clampCount_mem ((saved.bind (·.B)).bind (·.totalRemaining))
    (max 0 gs.timeoutsTotal) (max 0 gs.timeoutsTotal) (by omega) (by omega)
  by_cases hph : 0 < gs.timeoutsPerHalf
  · have hdh : 0 ≤ min gs.timeoutsPerHalf (max 0 gs.timeoutsTotal) := by omega
    have hAh := clampCount_mem ((saved.bind (·.A)).bind (·.halfRemaining))
      (min gs.timeoutsPerHalf (max 0 gs.timeoutsTotal))
      (min gs.timeoutsPerHalf (max 0 gs.timeoutsTotal)) hdh (by omega)
    have hBh := clampCount_mem ((saved.bind (·.B)).bind (·.halfRemaining))
      (min gs.timeoutsPerHalf (max 0 gs.timeoutsTotal))
      (min gs.timeoutsPerHalf (max 0 gs.timeoutsTotal)) hdh (by omega)
    constructor <;>
      simp only [initializeTimeoutState, usesPerHalfTimeouts, decide_eq_true_eq,
        if_pos hph, TeamBoundsOK] <;>
      refine ⟨by omega, by omega, fun _ => ⟨by omega, by omega⟩⟩
  · constructor <;>
      simp only [initializeTimeoutState, usesPerHalfTimeouts, decide_eq_true_eq,
        if_neg hph, TeamBoundsOK] <;>
      exact ⟨by omega, by omega, fun hc => absurd hc hph⟩

end Scorekeeper

namespace Scorekeeper

theorem handleTimeout_bounds (s : AppState) (team : Team) (nowMs : Nat)
    (hs : TimeoutBoundsOK s.gameSettings s.timeoutState) :
    TimeoutBoundsOK s.gameSettings (handleTimeout s team nowMs).1.timeoutState := by
  obtain ⟨hA, hB⟩ := hs
  simp only [handleTimeout]
  split
  · exact ⟨hA, hB⟩
  · split
    · exact ⟨hA, hB⟩
    · split
      · exact ⟨hA, hB⟩
      · split
        · exact ⟨hA, hB⟩
        · rename_i hstarted hstop htot hhalf
          simp only [recordSpecialEvent_fst]
          cases team <;>
            simp only [TimeoutState.team, TimeoutState.setTeam] at htot hhalf ⊢ <;>
            constructor <;>
            simp only [TeamBoundsOK, usesPerHalfTimeouts, decide_eq_true_eq] at hA hB ⊢ <;>
            first
              | exact hA
              | exact hB
              | (refine ⟨by omega, by omega, fun hc => ?_⟩
                 rcases hA.2.2 hc with ⟨h1, h2⟩
                 rcases hB.2.2 hc with ⟨h3, h4⟩
                 constructor <;> simp only [if_pos hc] <;> omega)

end Scorekeeper

namespace Scorekeeper

theorem adjust_team_credit_bounds (gs : GameSettings) (t : TeamTimeouts)
    (hpos : 0 < gs.timeoutsTotal) :
    TeamBoundsOK gs
      (TeamTimeouts.mk (normalizeCount (t.totalRemaining + 1) gs.timeoutsTotal)
        (if usesPerHalfTimeouts gs then normalizeCount (t.halfRemaining + 1) gs.timeoutsPerHalf
         else normalizeCount (t.totalRemaining + 1) gs.timeoutsTotal)) := by
  have h1 := normalizeCount_mem (t.totalRemaining + 1) gs.timeoutsTotal hpos
  refine ⟨h1.1, h1.2, fun hc => ?_⟩
  have h2 := normalizeCount_mem (t.halfRemaining + 1) gs.timeoutsPerHalf hc
  simp only [usesPerHalfTimeouts, decide_eq_true_eq, if_pos hc]
  exact h2

theorem adjust_team_debit_bounds (gs : GameSettings) (t : TeamTimeouts)
    (hpos : 0 < gs.timeoutsTotal) :
    TeamBoundsOK gs
      (TeamTimeouts.mk (normalizeCount (t.totalRemaining - 1) gs.timeoutsTotal)
        (if usesPerHalfTimeouts gs then normalizeCount (t.halfRemaining - 1) gs.timeoutsPerHalf
         else normalizeCount (t.totalRemaining - 1) gs.timeoutsTotal)) := by
  have h1 := normalizeCount_mem (t.totalRemaining - 1) gs.timeoutsTotal hpos
  refine ⟨h1.1, h1.2, fun hc => ?_⟩
  have h2 := normalizeCount_mem (t.halfRemaining - 1) gs.timeoutsPerHalf hc
  simp only [usesPerHalfTimeouts, decide_eq_true_eq, if_pos hc]
  exact h2

theorem adjustTimeoutCountsForEdit_bounds (gs : GameSettings) (ts : TimeoutState)
    (oldTeam newTeam : Option Team) (hpos : 0 < gs.timeoutsTotal)
    (hts : TimeoutBoundsOK gs ts) :
    TimeoutBoundsOK gs (adjustTimeoutCountsForEdit gs ts oldTeam newTeam) := by
  obtain ⟨hA, hB⟩ := hts
  simp only [adjustTimeoutCountsForEdit]
  have creditA := adjust_team_credit_bounds gs ts.A hpos
  have creditB := adjust_team_credit_bounds gs ts.B hpos
  rcases oldTeam with _ | t1
  · rcases newTeam with _ | t2
    · exact ⟨hA, hB⟩
    · cases t2
      · exact ⟨adjust_team_debit_bounds gs ts.A hpos, hB⟩
      · exact ⟨hA, adjust_team_debit_bounds gs ts.B hpos⟩
  · cases t1
    · rcases newTeam with _ | t2
      · exact ⟨creditA, hB⟩
      · cases t2
        · exact ⟨adjust_team_debit_bounds gs _ hpos, hB⟩
        · exact ⟨creditA, adjust_team_debit_bounds gs ts.B hpos⟩
    · rcases newTeam with _ | t2
      · exact ⟨hA, creditB⟩
      · cases t2
        · exact ⟨adjust_team_debit_bounds gs ts.A hpos, creditB⟩
        · exact ⟨hA, adjust_team_debit_bounds gs _ hpos⟩

end Scorekeeper

namespace Scorekeeper

/-- A state captured after the operator reduced `timeoutsTotal` to 0 in setup
(which re-initialises the balances to 0) while a timeout event recorded under
the earlier settings is still in the log. -/
def staleReassignState : AppState :=
  { initialState "Red" "Blue" with
    matchStarted := true
    gameSettings := { defaultGameSettings with timeoutsTotal := 0 }
    timeoutState :=
      { A := { totalRemaining := 0, halfRemaining := 0 }
        B := { totalRemaining := 0, halfRemaining := 0 } }
    scoreLogs := [specialEventLog "Red" "Blue" LogType.timeout (some Team.A) none 50] }

/-- C10 counterexample: with `timeoutsTotal = 0` the `normalize` closure of
`adjustTimeoutCountsForEdit` applies no upper clamp, so reassigning the stale
timeout away from team A pushes A's totalRemaining to 1 > timeoutsTotal = 0 —
the claimed 0..timeoutsTotal range is not an invariant of every
timeout-state operation. -/
theorem reassign_exceeds_total_bound :
    TimeoutBoundsOK staleReassignState.gameSettings staleReassignState.timeoutState
    ∧ (handleTimeoutEditSave staleReassignState
        (jsNumToString 50) Team.B 60).timeoutState.A.totalRemaining = 1
    ∧ ¬ TimeoutBoundsOK staleReassignState.gameSettings
        (handleTimeoutEditSave staleReassignState (jsNumToString 50) Team.B 60).timeoutState := by
  refine ⟨by decide, by decide, by decide⟩

/-- C10 amended: balances stay in range — `initializeTimeoutState` clamps any
restored snapshot values back into 0..timeoutsTotal (and 0..timeoutsPerHalf
when per-half limiting is enabled), an accepted or rejected CallTimeout keeps
in-range balances in range, and the reassignment adjustment keeps them in
range provided `timeoutsTotal` is positive (with a zero total allotment its
credit path can exceed the bound); no operation ever drives a balance
negative. -/
theorem timeout_bounds_kept (gs : GameSettings) (saved : Option SavedTimeoutState)
    (s : AppState) (team : Team) (nowMs : Nat) (ts : TimeoutState)
    (oldTeam newTeam : Option Team) (hpos : 0 < gs.timeoutsTotal)
    (hs : TimeoutBoundsOK s.gameSettings s.timeoutState)
    (hts : TimeoutBoundsOK gs ts) :
    TimeoutBoundsOK gs (initializeTimeoutState gs saved)
    ∧ TimeoutBoundsOK s.gameSettings (handleTimeout s team nowMs).1.timeoutState
    ∧ TimeoutBoundsOK gs (adjustTimeoutCountsForEdit gs ts oldTeam newTeam) :=
  ⟨initializeTimeoutState_bounds gs saved (le_of_lt hpos),
   handleTimeout_bounds s team nowMs hs,
   adjustTimeoutCountsForEdit_bounds gs ts oldTeam newTeam hpos hts⟩

theorem timeout_bounds_kept_witness :
    ((0 : Int) < defaultGameSettings.timeoutsTotal
      ∧ TimeoutBoundsOK (initialState "Red" "Blue").gameSettings
          (initialState "Red" "Blue").timeoutState
      ∧ TimeoutBoundsOK defaultGameSettings
          (initializeTimeoutState defaultGameSettings none))
    ∧ (TimeoutBoundsOK defaultGameSettings
          (initializeTimeoutState defaultGameSettings
            (some { A := some { totalRemaining := some 9, halfRemaining := some (-3) }
                    B := none }))
        ∧ TimeoutBoundsOK (initialState "Red" "Blue").gameSettings
            (handleTimeout (initialState "Red" "Blue") Team.A 5).1.timeoutState
        ∧ TimeoutBoundsOK defaultGameSettings
            (adjustTimeoutCountsForEdit defaultGameSettings
              (initializeTimeoutState defaultGameSettings none)
              (some Team.A) (some Team.B))) :=
  ⟨⟨by decide, by decide, by decide⟩,
   (timeout_bounds_kept defaultGameSettings
      (some { A := some { totalRemaining := some 9, halfRemaining := some (-3) }, B := none })
      (initialState "Red" "Blue") Team.A 5 (initializeTimeoutState defaultGameSettings none)
      (some Team.A) (some Team.B) (by decide) (by decide) (by decide))⟩

end Scorekeeper

namespace Scorekeeper

/-- What the halftime-trigger pipeline (`checkForScoreCap`,
`updateHalftimeTracking`, `handleHalftime`, `maybeTriggerHalftimeByScore`,
`attemptPendingHalftime`, `maybeTriggerHalftimeByTime`) can do to the state:
append only Halftime entries and leave the scoreboard counters, the team
names, both totalRemaining balances and the settings untouched. -/
def PipelineFrame (s s' : AppState) : Prop :=
  (∃ ex, s'.scoreLogs = s.scoreLogs ++ ex ∧ ∀ e ∈ ex, e.type = LogType.halftime)
  ∧ s'.teamAScore = s.teamAScore ∧ s'.teamBScore = s.teamBScore
  ∧ s'.teamAName = s.teamAName ∧ s'.teamBName = s.teamBName
  ∧ s'.timeoutState.A.totalRemaining = s.timeoutState.A.totalRemaining
  ∧ s'.timeoutState.B.totalRemaining = s.timeoutState.B.totalRemaining
  ∧ s'.gameSettings = s.gameSettings

theorem PipelineFrame.refl (s : AppState) : PipelineFrame s s :=
  ⟨⟨[], by simp⟩, rfl, rfl, rfl, rfl, rfl, rfl, rfl⟩

theorem PipelineFrame.trans {s t u : AppState} (h1 : PipelineFrame s t)
    (h2 : PipelineFrame t u) : PipelineFrame s u := by
  obtain ⟨⟨ex1, he1, ht1⟩, h1a, h1b, h1c, h1d, h1e, h1f, h1g⟩ := h1
  obtain ⟨⟨ex2, he2, ht2⟩, h2a, h2b, h2c, h2d, h2e, h2f, h2g⟩ := h2
  refine ⟨⟨ex1 ++ ex2, by rw [he2, he1, List.append_assoc], ?_⟩, ?_, ?_, ?_, ?_, ?_, ?_, ?_⟩ <;>
    simp_all
  intro e he
  rcases he with h | h
  · exact ht1 e h
  · exact ht2 e h

theorem checkForScoreCap_pipelineFrame (s : AppState) : PipelineFrame s (checkForScoreCap s) := by
  have h := checkForScoreCap_frame s
  exact ⟨⟨[], by simp [h.2.1], by simp⟩, h.2.2.1, h.2.2.2.1, h.2.2.2.2.1, h.2.2.2.2.2.1,
    by rw [h.1], by rw [h.1], h.2.2.2.2.2.2⟩

theorem updateHalftimeTracking_pipelineFrame (s : AppState) :
    PipelineFrame s (updateHalftimeTracking s) := by
  have h := updateHalftimeTracking_frame s
  exact ⟨⟨[], by simp [h.2.1], by simp⟩, h.2.2.1, h.2.2.2.1, h.2.2.2.2.1, h.2.2.2.2.2.1,
    by rw [h.1], by rw [h.1], h.2.2.2.2.2.2⟩

theorem handleHalftime_pipelineFrame (s : AppState) (reason : String) (nowMs : Nat) :
    PipelineFrame s (handleHalftime s reason nowMs).2 := by
  simp only [handleHalftime]
  split
  · exact PipelineFrame.refl s
  · split
    · exact PipelineFrame.refl s
    · refine ⟨⟨[specialEventLog s.teamAName s.teamBName LogType.halftime none
          (some reason) nowMs], ?_, ?_⟩, ?_, ?_, ?_, ?_, ?_, ?_, ?_⟩ <;>
        (try simp only [recordSpecialEvent, updateHalftimeTracking_frame]) <;>
        first
          | rfl
          | (intro e he; simp only [List.mem_singleton] at he; subst he; rfl)
          | (split <;> rfl)

end Scorekeeper

namespace Scorekeeper

theorem maybeTriggerHalftimeByScore_pipelineFrame (s : AppState) (nowMs : Nat) :
    PipelineFrame s (maybeTriggerHalftimeByScore s nowMs) := by
  simp only [maybeTriggerHalftimeByScore]
  split
  · exact PipelineFrame.refl s
  · split
    · exact PipelineFrame.refl s
    · split
      · split
        · exact ⟨⟨[], by simp, by simp⟩, rfl, rfl, rfl, rfl, rfl, rfl, rfl⟩
        · exact PipelineFrame.refl s
      · split
        · exact handleHalftime_pipelineFrame s "score" nowMs
        · exact PipelineFrame.refl s

theorem attemptPendingHalftime_pipelineFrame (s : AppState) (nowMs : Nat) :
    PipelineFrame s (attemptPendingHalftime s nowMs) := by
  simp only [attemptPendingHalftime]
  split
  · exact PipelineFrame.refl s
  · split
    · exact PipelineFrame.refl s
    · split
      · exact PipelineFrame.refl s
      · split
        · exact handleHalftime_pipelineFrame s "clock" nowMs
        · exact PipelineFrame.refl s

theorem maybeTriggerHalftimeByTime_pipelineFrame (s : AppState) (remainingMs : Nat) :
    PipelineFrame s (maybeTriggerHalftimeByTime s remainingMs) := by
  simp only [maybeTriggerHalftimeByTime]
  split
  · exact PipelineFrame.refl s
  · split
    · exact PipelineFrame.refl s
    · split
      · split
        · exact ⟨⟨[], by simp, by simp⟩, rfl, rfl, rfl, rfl, rfl, rfl, rfl⟩
        · exact PipelineFrame.refl s
      · split
        · split
          · exact ⟨⟨[], by simp, by simp⟩, rfl, rfl, rfl, rfl, rfl, rfl, rfl⟩
          · exact PipelineFrame.refl s
        · exact PipelineFrame.refl s

/-- The score entry appended by `addNewScore` at clock reading `nowMs`. -/
def newScoreEntry (s : AppState) (team : Team) (scorer assist : String) (nowMs : Nat) :
    LogEntry :=
  createLogObject s.teamAName s.teamBName (jsNumToString nowMs) (some team)
    (jsNumToString nowMs) scorer assist

theorem pipeline_spec (u : AppState) (nowMs : Nat) :
    PipelineFrame u
      (attemptPendingHalftime (maybeTriggerHalftimeByScore (checkForScoreCap u) nowMs) nowMs) :=
  PipelineFrame.trans (checkForScoreCap_pipelineFrame u)
    (PipelineFrame.trans (maybeTriggerHalftimeByScore_pipelineFrame _ nowMs)
      (attemptPendingHalftime_pipelineFrame _ nowMs))

theorem addNewScore_spec (s : AppState) (team : Team) (scorer assist : String) (nowMs : Nat) :
    (∃ ex, (addNewScore s team scorer assist nowMs).scoreLogs
        = s.scoreLogs ++ newScoreEntry s team scorer assist nowMs :: ex
      ∧ ∀ e ∈ ex, e.type = LogType.halftime)
    ∧ (addNewScore s team scorer assist nowMs).teamAScore
        = (match team with | Team.A => s.teamAScore + 1 | Team.B => s.teamAScore)
    ∧ (addNewScore s team scorer assist nowMs).teamBScore
        = (match team with | Team.A => s.teamBScore | Team.B => s.teamBScore + 1)
    ∧ (addNewScore s team scorer assist nowMs).teamAName = s.teamAName
    ∧ (addNewScore s team scorer assist nowMs).teamBName = s.teamBName
    ∧ (addNewScore s team scorer assist nowMs).timeoutState.A.totalRemaining
        = s.timeoutState.A.totalRemaining
    ∧ (addNewScore s team scorer assist nowMs).timeoutState.B.totalRemaining
        = s.timeoutState.B.totalRemaining := by
  cases team
  case A =>
    obtain ⟨⟨ex, hex, hext⟩, ha, hb, hna, hnb, hta, htb, hgs⟩ :=
      pipeline_spec { s with
        teamAScore := s.teamAScore + 1
        scoreLogs := s.scoreLogs ++
          [createLogObject s.teamAName s.teamBName (jsNumToString nowMs) (some Team.A)
            (jsNumToString nowMs) scorer assist] } nowMs
    simp only [addNewScore, newScoreEntry]
    refine ⟨⟨ex, ?_, hext⟩, ?_, ?_, ?_, ?_, ?_, ?_⟩ <;> simp_all
  case B =>
    obtain ⟨⟨ex, hex, hext⟩, ha, hb, hna, hnb, hta, htb, hgs⟩ :=
      pipeline_spec { s with
        teamBScore := s.teamBScore + 1
        scoreLogs := s.scoreLogs ++
          [createLogObject s.teamAName s.teamBName (jsNumToString nowMs) (some Team.B)
            (jsNumToString nowMs) scorer assist] } nowMs
    simp only [addNewScore, newScoreEntry]
    refine ⟨⟨ex, ?_, hext⟩, ?_, ?_, ?_, ?_, ?_, ?_⟩ <;> simp_all

end Scorekeeper

namespace Scorekeeper

/-- A match in which the operator logs two goals within the same clock
millisecond (2000). -/
def sameMsState : AppState :=
  applyActions (initialState "Red" "Blue")
    [Action.startMatch 1000,
     Action.addScore Team.A "Alice" "Bob" 2000,
     Action.addScore Team.B "Carol" "Dana" 2000]

/-- C9 counterexample: two distinct Score events accepted within the same
clock millisecond both receive the id "2000" (`Date.now().toString()`), so
event ids are neither pairwise distinct nor strictly monotonic for arbitrary
timing of the appends. -/
theorem same_millisecond_ids_collide :
    sameMsState.scoreLogs.Nodup
    ∧ (sameMsState.scoreLogs.map (fun e => e.scoreID)) = ["1000", "2000", "2000"]
    ∧ ¬ (sameMsState.scoreLogs.map (fun e => e.scoreID)).Nodup := by
  refine ⟨by decide, by decide, by decide⟩

/-- C9 amended: every id is the decimal rendering of the event's creation
time in milliseconds; events created at strictly increasing millisecond
readings have pairwise distinct ids whose encoded timestamps strictly
increase with creation order, while two appends within the same millisecond
receive identical ids. -/
theorem event_ids_decimal_timestamps (s : AppState) (team : Team)
    (scorer assist : String) (t1 t2 : Nat) (h : t1 < t2) :
    jsNumToString t1 ≠ jsNumToString t2
    ∧ parseDecimal (jsNumToString t1) < parseDecimal (jsNumToString t2)
    ∧ ((addNewScore s team scorer assist t1).scoreLogs.drop s.scoreLogs.length).head?
        = some (newScoreEntry s team scorer assist t1) := by
  refine ⟨fun heq => absurd (jsNumToString_injective heq) (Nat.ne_of_lt h), ?_, ?_⟩
  · rw [parseDecimal_jsNumToString, parseDecimal_jsNumToString]; exact h
  · obtain ⟨⟨ex, hex, _⟩, _⟩ := addNewScore_spec s team scorer assist t1
    rw [hex, List.drop_left]
    rfl

theorem event_ids_decimal_timestamps_witness :
    (1 < 2)
    ∧ (jsNumToString 1 ≠ jsNumToString 2
      ∧ parseDecimal (jsNumToString 1) < parseDecimal (jsNumToString 2)
      ∧ ((addNewScore (initialState "Red" "Blue") Team.A "Alice" "Bob" 1).scoreLogs.drop
            (initialState "Red" "Blue").scoreLogs.length).head?
          = some (newScoreEntry (initialState "Red" "Blue") Team.A "Alice" "Bob" 1)) :=
  ⟨by decide, event_ids_decimal_timestamps (initialState "Red" "Blue") Team.A "Alice" "Bob"
    1 2 (by decide)⟩

end Scorekeeper

namespace Scorekeeper

/-- Timeout events in the log currently attributed to a team. -/
def countTimeouts (logs : List LogEntry) (t : Team) : Nat :=
  (logs.filter (fun e => e.type = LogType.timeout ∧ e.TeamLetter = some t)).length

/-- Contribution of one entry to `countTimeouts`. -/
def countOne (e : LogEntry) (t : Team) : Nat :=
  if e.type = LogType.timeout ∧ e.TeamLetter = some t then 1 else 0

/-- The quantity claimed to be conserved: a team's remaining total plus the
timeout events currently attributed to it. -/
def timeoutQuantity (s : AppState) (t : Team) : Int :=
  (s.timeoutState.team t).totalRemaining + countTimeouts s.scoreLogs t

theorem countTimeouts_append (l1 l2 : List LogEntry) (t : Team) :
    countTimeouts (l1 ++ l2) t = countTimeouts l1 t + countTimeouts l2 t := by
  simp [countTimeouts, List.filter_append]

theorem countTimeouts_cons (e : LogEntry) (l : List LogEntry) (t : Team) :
    countTimeouts (e :: l) t = countOne e t + countTimeouts l t := by
  simp only [countTimeouts, countOne, List.filter_cons]
  split <;> rename_i hh <;> simp at hh
  · simp only [if_pos hh, List.length_cons]
    omega
  · rw [if_neg (fun hc => hh hc.1 hc.2)]
    omega

theorem countTimeouts_halftime_only (ex : List LogEntry) (t : Team)
    (h : ∀ e ∈ ex, e.type = LogType.halftime) : countTimeouts ex t = 0 := by
  induction ex with
  | nil => rfl
  | cons e rest ih =>
    rw [countTimeouts_cons, ih (fun x hx => h x (List.mem_cons_of_mem e hx))]
    have he := h e (List.mem_cons_self e rest)
    simp [countOne, he]

theorem PipelineFrame.quantity {s s' : AppState} (h : PipelineFrame s s') (t : Team) :
    timeoutQuantity s' t = timeoutQuantity s t := by
  obtain ⟨⟨ex, hex, hext⟩, _, _, _, _, hta, htb, _⟩ := h
  unfold timeoutQuantity
  rw [hex, countTimeouts_append, countTimeouts_halftime_only ex t hext]
  cases t <;> simp [TimeoutState.team, hta, htb]

/-- The principal refinement relation of C1: the incrementally maintained pair
equals the scoreboard recomputed from the full log. -/
def scoreboardAgrees (s : AppState) : Prop :=
  (s.teamAScore, s.teamBScore) = computeScoreboard s.teamAName s.teamBName s.scoreLogs

theorem computeScoreboard_append (nA nB : String) (l1 l2 : List LogEntry) :
    computeScoreboard nA nB (l1 ++ l2)
      = l2.foldl (scoreboardStep nA nB) (computeScoreboard nA nB l1) := by
  simp [computeScoreboard, List.foldl_append]

theorem scoreboardStep_nonscore (nA nB : String) (acc : Nat × Nat) (e : LogEntry)
    (h : isScoreLog e = false) : scoreboardStep nA nB acc e = acc := by
  simp [scoreboardStep, h]

theorem foldl_scoreboardStep_nonscore (nA nB : String) (acc : Nat × Nat)
    (ex : List LogEntry) (h : ∀ e ∈ ex, isScoreLog e = false) :
    ex.foldl (scoreboardStep nA nB) acc = acc := by
  induction ex generalizing acc with
  | nil => rfl
  | cons e rest ih =>
    rw [List.foldl_cons, scoreboardStep_nonscore nA nB acc e (h e (List.mem_cons_self e rest))]
    exact ih acc (fun x hx => h x (List.mem_cons_of_mem e hx))

theorem computeScoreboard_append_nonscore (nA nB : String) (l ex : List LogEntry)
    (h : ∀ e ∈ ex, isScoreLog e = false) :
    computeScoreboard nA nB (l ++ ex) = computeScoreboard nA nB l := by
  rw [computeScoreboard_append]
  exact foldl_scoreboardStep_nonscore nA nB _ ex h

theorem isScoreLog_halftime {e : LogEntry} (h : e.type = LogType.halftime) :
    isScoreLog e = false := by
  simp [isScoreLog, getLogType, h]

theorem PipelineFrame.scoreboard {s s' : AppState} (h : PipelineFrame s s')
    (hs : scoreboardAgrees s) : scoreboardAgrees s' := by
  obtain ⟨⟨ex, hex, hext⟩, ha, hb, hna, hnb, _, _, _⟩ := h
  unfold scoreboardAgrees at hs ⊢
  rw [ha, hb, hna, hnb, hex,
    computeScoreboard_append_nonscore _ _ _ ex
      (fun e he => isScoreLog_halftime (hext e he))]
  exact hs

end Scorekeeper

namespace Scorekeeper

theorem rebuild_quantity (s : AppState) (nowMs : Nat) (t : Team) :
    timeoutQuantity (rebuildTableAndCounters s nowMs) t = timeoutQuantity s t := by
  simp only [rebuildTableAndCounters]
  have h := PipelineFrame.trans (checkForScoreCap_pipelineFrame
      { s with teamAScore := (computeScoreboard s.teamAName s.teamBName s.scoreLogs).1
               teamBScore := (computeScoreboard s.teamAName s.teamBName s.scoreLogs).2 })
    (PipelineFrame.trans (updateHalftimeTracking_pipelineFrame _)
      (maybeTriggerHalftimeByScore_pipelineFrame _ nowMs))
  exact (h.quantity t).trans rfl

theorem rebuild_scoreboardAgrees (s : AppState) (nowMs : Nat) :
    scoreboardAgrees (rebuildTableAndCounters s nowMs) := by
  simp only [rebuildTableAndCounters]
  have h := PipelineFrame.trans (checkForScoreCap_pipelineFrame
      { s with teamAScore := (computeScoreboard s.teamAName s.teamBName s.scoreLogs).1
               teamBScore := (computeScoreboard s.teamAName s.teamBName s.scoreLogs).2 })
    (PipelineFrame.trans (updateHalftimeTracking_pipelineFrame _)
      (maybeTriggerHalftimeByScore_pipelineFrame _ nowMs))
  exact h.scoreboard rfl

theorem rebuild_timeoutState (s : AppState) (nowMs : Nat) :
    (rebuildTableAndCounters s nowMs).timeoutState.A.totalRemaining
        = s.timeoutState.A.totalRemaining
    ∧ (rebuildTableAndCounters s nowMs).timeoutState.B.totalRemaining
        = s.timeoutState.B.totalRemaining := by
  simp only [rebuildTableAndCounters]
  have h := PipelineFrame.trans (checkForScoreCap_pipelineFrame
      { s with teamAScore := (computeScoreboard s.teamAName s.teamBName s.scoreLogs).1
               teamBScore := (computeScoreboard s.teamAName s.teamBName s.scoreLogs).2 })
    (PipelineFrame.trans (updateHalftimeTracking_pipelineFrame _)
      (maybeTriggerHalftimeByScore_pipelineFrame _ nowMs))
  exact ⟨h.2.2.2.2.2.1.trans rfl, h.2.2.2.2.2.2.1.trans rfl⟩

end Scorekeeper

namespace Scorekeeper

theorem updateScoreLogWith_of_find {logs : List LogEntry} {id : String}
    {e : LogEntry} (f : LogEntry → LogEntry) (h : getScoreLog logs id = some e) :
    ∃ logs2, updateScoreLogWith logs id f = some logs2
      ∧ ∀ t, countTimeouts logs2 t + countOne e t
          = countTimeouts logs t + countOne (f e) t := by
  induction logs with
  | nil => simp [getScoreLog] at h
  | cons x rest ih =>
    by_cases hx : x.scoreID = id
    · have hex : x = e := by
        simpa [getScoreLog, List.find?_cons, hx] using h
      subst hex
      refine ⟨f x :: rest, by simp [updateScoreLogWith, hx], fun t => ?_⟩
      rw [countTimeouts_cons, countTimeouts_cons]
      omega
    · have hrest : getScoreLog rest id = some e := by
        simpa [getScoreLog, List.find?_cons, hx] using h
      obtain ⟨tail, htail, hcount⟩ := ih hrest
      refine ⟨x :: tail, by simp [updateScoreLogWith, hx, htail], fun t => ?_⟩
      rw [countTimeouts_cons, countTimeouts_cons]
      have := hcount t
      omega

theorem removeScoreLog_of_find {logs : List LogEntry} {id : String}
    {e : LogEntry} (h : getScoreLog logs id = some e) :
    ∃ rest, removeScoreLog logs id = some (e, rest)
      ∧ ∀ t, countTimeouts rest t + countOne e t = countTimeouts logs t := by
  induction logs with
  | nil => simp [getScoreLog] at h
  | cons x tail ih =>
    by_cases hx : x.scoreID = id
    · have hex : x = e := by
        simpa [getScoreLog, List.find?_cons, hx] using h
      subst hex
      refine ⟨tail, by simp [removeScoreLog, hx], fun t => ?_⟩
      rw [countTimeouts_cons]
      omega
    · have hrest : getScoreLog tail id = some e := by
        simpa [getScoreLog, List.find?_cons, hx] using h
      obtain ⟨rest, hrem, hcount⟩ := ih hrest
      refine ⟨x :: rest, by simp [removeScoreLog, hx, hrem], fun t => ?_⟩
      rw [countTimeouts_cons, countTimeouts_cons]
      have := hcount t
      omega

theorem handleTimeout_quantity (s : AppState) (team : Team) (nowMs : Nat) (t : Team) :
    timeoutQuantity ((handleTimeout s team nowMs).1) t = timeoutQuantity s t := by
  simp only [handleTimeout]
  split
  · rfl
  · split
    · rfl
    · split
      · rfl
      · split
        · rfl
        · rename_i h1 h2 htot hhalf
          simp only [recordSpecialEvent_fst]
          unfold timeoutQuantity
          rw [countTimeouts_append]
          cases team <;> cases t <;>
            simp only [TimeoutState.team, TimeoutState.setTeam] at htot ⊢ <;>
            simp [countTimeouts, countOne, specialEventLog, createLogObject,
              specialEventDisplayLabel] <;>
            omega

end Scorekeeper

namespace Scorekeeper

theorem handleTimeoutEditSave_quantity (s : AppState) (id : String)
    (oldTeam newTeam : Team) (nowMs : Nat) (log : LogEntry)
    (hfound : getScoreLog s.scoreLogs id = some log)
    (htype : log.type = LogType.timeout)
    (hletter : log.TeamLetter = some oldTeam)
    (hne : oldTeam ≠ newTeam)
    (hnameA : s.teamAName ≠ "") (hnameB : s.teamBName ≠ "")
    (hO0 : 0 ≤ (s.timeoutState.team oldTeam).totalRemaining)
    (hO1 : (s.timeoutState.team oldTeam).totalRemaining < s.gameSettings.timeoutsTotal)
    (hN0 : 0 < (s.timeoutState.team newTeam).totalRemaining)
    (hN1 : (s.timeoutState.team newTeam).totalRemaining ≤ s.gameSettings.timeoutsTotal)
    (t : Team) :
    timeoutQuantity (handleTimeoutEditSave s id newTeam nowMs) t = timeoutQuantity s t := by
  cases oldTeam <;> cases newTeam
  case A.A => exact absurd rfl hne
  case B.B => exact absurd rfl hne
  case A.B =>
    obtain ⟨logs2, hupd, hcount⟩ := updateScoreLogWith_of_find
      (fun e => { e with TeamLetter := some Team.B, Team := s.teamBName, TeamName := s.teamBName })
      hfound
    simp only [TimeoutState.team] at hO0 hO1 hN0 hN1
    simp only [handleTimeoutEditSave, hfound]
    rw [if_neg (by simp [htype]), if_neg hnameB, hupd]
    dsimp only
    rw [hletter, if_pos (by decide)]
    rw [rebuild_quantity]
    have hcq := hcount t
    have h1 : countOne log Team.A = 1 := by simp [countOne, htype, hletter]
    have h0 : countOne log Team.B = 0 := by simp [countOne, htype, hletter]
    have hfA : countOne (LogEntry.mk log.scoreID log.GameID log.Time s.teamBName s.teamBName
        (some Team.B) log.Score log.Assist log.type log.Event log.EventType
        log.HalftimeReason) Team.A = 0 := by simp [countOne]
    have hfB : countOne (LogEntry.mk log.scoreID log.GameID log.Time s.teamBName s.teamBName
        (some Team.B) log.Score log.Assist log.type log.Event log.EventType
        log.HalftimeReason) Team.B = 1 := by simp [countOne, htype]
    unfold timeoutQuantity
    cases t <;>
      simp only [TimeoutState.team, adjustTimeoutCountsForEdit, normalizeCount,
        usesPerHalfTimeouts, hfA, hfB, h1, h0] at hcq ⊢ <;>
      omega
  case B.A =>
    obtain ⟨logs2, hupd, hcount⟩ := updateScoreLogWith_of_find
      (fun e => { e with TeamLetter := some Team.A, Team := s.teamAName, TeamName := s.teamAName })
      hfound
    simp only [TimeoutState.team] at hO0 hO1 hN0 hN1
    simp only [handleTimeoutEditSave, hfound]
    rw [if_neg (by simp [htype]), if_neg hnameA, hupd]
    dsimp only
    rw [hletter, if_pos (by decide)]
    rw [rebuild_quantity]
    have hcq := hcount t
    have h1 : countOne log Team.B = 1 := by simp [countOne, htype, hletter]
    have h0 : countOne log Team.A = 0 := by simp [countOne, htype, hletter]
    have hfA : countOne (LogEntry.mk log.scoreID log.GameID log.Time s.teamAName s.teamAName
        (some Team.A) log.Score log.Assist log.type log.Event log.EventType
        log.HalftimeReason) Team.A = 1 := by simp [countOne, htype]
    have hfB : countOne (LogEntry.mk log.scoreID log.GameID log.Time s.teamAName s.teamAName
        (some Team.A) log.Score log.Assist log.type log.Event log.EventType
        log.HalftimeReason) Team.B = 0 := by simp [countOne]
    unfold timeoutQuantity
    cases t <;>
      simp only [TimeoutState.team, adjustTimeoutCountsForEdit, normalizeCount,
        usesPerHalfTimeouts, hfA, hfB, h1, h0] at hcq ⊢ <;>
      omega

end Scorekeeper

namespace Scorekeeper

theorem handleDeleteScore_quantity (s : AppState) (id : String) (nowMs : Nat)
    (log : LogEntry) (oldTeam : Team)
    (hfound : getScoreLog s.scoreLogs id = some log)
    (htype : log.type = LogType.timeout)
    (hletter : log.TeamLetter = some oldTeam) :
    (handleDeleteScore s id nowMs).timeoutState.A.totalRemaining
        = s.timeoutState.A.totalRemaining
    ∧ (handleDeleteScore s id nowMs).timeoutState.B.totalRemaining
        = s.timeoutState.B.totalRemaining
    ∧ timeoutQuantity (handleDeleteScore s id nowMs) oldTeam + 1
        = timeoutQuantity s oldTeam := by
  obtain ⟨rest, hrem, hcount⟩ := removeScoreLog_of_find hfound
  simp only [handleDeleteScore, hrem]
  refine ⟨(rebuild_timeoutState _ _).1.trans rfl, (rebuild_timeoutState _ _).2.trans rfl, ?_⟩
  rw [rebuild_quantity]
  have hcq := hcount oldTeam
  have hone : countOne log oldTeam = 1 := by simp [countOne, htype, hletter]
  unfold timeoutQuantity
  cases oldTeam <;> simp only [TimeoutState.team, hone] at hcq ⊢ <;> omega

end Scorekeeper

namespace Scorekeeper

/-- Settings with a single timeout per team. -/
def oneTimeoutSettings : GameSettings :=
  { defaultGameSettings with timeoutsTotal := 1 }

/-- A fresh match configured with one timeout per team. -/
def oneTimeoutStart : AppState :=
  { initialState "Red" "Blue" with
    gameSettings := oneTimeoutSettings
    timeoutState := initializeTimeoutState oneTimeoutSettings none }

/-- Started match in which both teams have used their single timeout. -/
def conservationPre : AppState :=
  applyActions oneTimeoutStart
    [Action.startMatch 1, Action.callTimeout Team.A 50, Action.callTimeout Team.B 60]

/-- C3 counterexample: with one timeout per team and both already used,
reassigning team A's timeout to team B leaves B's totalRemaining clamped at 0
while B's attributed-timeout count rises to 2, so B's quantity
totalRemaining + count jumps from 1 to 2 — not invariant across accepted
reassignments. -/
theorem reassign_to_exhausted_team_breaks_conservation :
    timeoutQuantity conservationPre Team.B = 1
    ∧ timeoutQuantity
        (applyAction conservationPre (Action.reassignTimeout (jsNumToString 50) Team.B 70))
        Team.B = 2
    ∧ timeoutQuantity
        (applyAction conservationPre (Action.reassignTimeout (jsNumToString 50) Team.B 70))
        Team.B ≠ timeoutQuantity conservationPre Team.B := by
  refine ⟨by decide, by decide, by decide⟩

/-- C3 amended: a team's totalRemaining + (count of Timeout events attributed
to it) is preserved by every CallTimeout (accepted or rejected) and by a
ReassignTimeout whose source team is below the total allotment and whose
destination team still has a timeout remaining (the debit clamps at 0, so
reassigning to an exhausted team breaks the sum); deleting a Timeout event
does not restore any balance — both totalRemaining values are unchanged and
the attributed team's quantity drops by exactly one. -/
theorem timeout_balance_conservation_scope
    (s : AppState) (id : String) (oldTeam newTeam : Team) (nowMs : Nat) (log : LogEntry)
    (hfound : getScoreLog s.scoreLogs id = some log)
    (htype : log.type = LogType.timeout)
    (hletter : log.TeamLetter = some oldTeam)
    (hne : oldTeam ≠ newTeam)
    (hnameA : s.teamAName ≠ "") (hnameB : s.teamBName ≠ "")
    (hO0 : 0 ≤ (s.timeoutState.team oldTeam).totalRemaining)
    (hO1 : (s.timeoutState.team oldTeam).totalRemaining < s.gameSettings.timeoutsTotal)
    (hN0 : 0 < (s.timeoutState.team newTeam).totalRemaining)
    (hN1 : (s.timeoutState.team newTeam).totalRemaining ≤ s.gameSettings.timeoutsTotal) :
    (∀ (u : AppState) (tm : Team) (n : Nat) (t : Team),
        timeoutQuantity ((handleTimeout u tm n).1) t = timeoutQuantity u t)
    ∧ (∀ t, timeoutQuantity (handleTimeoutEditSave s id newTeam nowMs) t
        = timeoutQuantity s t)
    ∧ ((handleDeleteScore s id nowMs).timeoutState.A.totalRemaining
          = s.timeoutState.A.totalRemaining
      ∧ (handleDeleteScore s id nowMs).timeoutState.B.totalRemaining
          = s.timeoutState.B.totalRemaining
      ∧ timeoutQuantity (handleDeleteScore s id nowMs) oldTeam + 1
          = timeoutQuantity s oldTeam) :=
  ⟨fun u tm n t => handleTimeout_quantity u tm n t,
   fun t => handleTimeoutEditSave_quantity s id oldTeam newTeam nowMs log hfound htype
     hletter hne hnameA hnameB hO0 hO1 hN0 hN1 t,
   handleDeleteScore_quantity s id nowMs log oldTeam hfound htype hletter⟩

/-- Started default-config match in which team A has called one timeout. -/
def conservationWitState : AppState :=
  applyActions (initialState "Red" "Blue")
    [Action.startMatch 1, Action.callTimeout Team.A 50]

theorem timeout_balance_conservation_scope_witness :
    (getScoreLog conservationWitState.scoreLogs (jsNumToString 50)
        = some (specialEventLog "Red" "Blue" LogType.timeout (some Team.A) none 50)
      ∧ (conservationWitState.timeoutState.team Team.A).totalRemaining
          < conservationWitState.gameSettings.timeoutsTotal
      ∧ 0 < (conservationWitState.timeoutState.team Team.B).totalRemaining)
    ∧ (∀ t, timeoutQuantity
          (handleTimeoutEditSave conservationWitState (jsNumToString 50) Team.B 70) t
        = timeoutQuantity conservationWitState t) :=
  ⟨⟨by decide, by decide, by decide⟩,
   (timeout_balance_conservation_scope conservationWitState (jsNumToString 50) Team.A Team.B 70
      (specialEventLog "Red" "Blue" LogType.timeout (some Team.A) none 50)
      (by decide) (by decide) (by decide) (by decide) (by decide) (by decide)
      (by decide) (by decide) (by decide) (by decide)).2.1⟩

end Scorekeeper

namespace Scorekeeper

theorem updateHalftimeTracking_proj (s : AppState) (l : List LogEntry) (e : LogEntry)
    (hlogs : s.scoreLogs = l ++ [e]) (he : e.type = LogType.halftime) :
    (updateHalftimeTracking s).halftimeTriggered = true
    ∧ (updateHalftimeTracking s).halftimeReasonResolved
        = (if s.halftimeReasonResolved.isNone
           then some (e.HalftimeReason.getD "restored")
           else s.halftimeReasonResolved) := by
  have hfilter : [e].filter (fun log => getLogType log = LogType.halftime) = [e] := by
    simp [getLogType, he]
  have hlast : (s.scoreLogs.filter (fun log => getLogType log = LogType.halftime)).getLast?
      = some e := by
    rw [hlogs, List.filter_append, hfilter, List.getLast?_concat]
  refine ⟨?_, ?_⟩ <;>
    simp only [updateHalftimeTracking, hlast] <;>
    split <;> (try split) <;> simp_all

theorem handleHalftime_flags (s : AppState) (reason : String) (nowMs : Nat)
    (hTrig : s.halftimeTriggered = false) (hStart : s.matchStarted = true) :
    (handleHalftime s reason nowMs).1 = true
    ∧ (handleHalftime s reason nowMs).2.halftimeTriggered = true
    ∧ (handleHalftime s reason nowMs).2.halftimePendingReason = none
    ∧ (handleHalftime s reason nowMs).2.halftimeAutoSuppressed = false
    ∧ (handleHalftime s reason nowMs).2.halftimeReasonResolved = some reason := by
  simp only [handleHalftime, hTrig, hStart, recordSpecialEvent, Bool.false_eq_true,
    if_false, not_true_eq_false]
  refine ⟨trivial, ?_, trivial, trivial, ?_⟩
  · exact (updateHalftimeTracking_proj _ s.scoreLogs
      (specialEventLog s.teamAName s.teamBName LogType.halftime none (some reason) nowMs)
      rfl rfl).1
  · exact ((updateHalftimeTracking_proj _ s.scoreLogs
      (specialEventLog s.teamAName s.teamBName LogType.halftime none (some reason) nowMs)
      rfl rfl).2).trans (by simp)

end Scorekeeper

namespace Scorekeeper

theorem checkForScoreCap_flags (s : AppState) :
    (checkForScoreCap s).matchStarted = s.matchStarted
    ∧ (checkForScoreCap s).halftimeTriggered = s.halftimeTriggered
    ∧ (checkForScoreCap s).halftimeReasonResolved = s.halftimeReasonResolved
    ∧ (checkForScoreCap s).halftimeAutoSuppressed = s.halftimeAutoSuppressed
    ∧ (checkForScoreCap s).halftimePendingReason = s.halftimePendingReason := by
  simp only [checkForScoreCap]
  split <;> (try split) <;> simp_all

theorem tick_sets_pending (s : AppState) (remainingMs : Nat)
    (hStart : s.matchStarted = true) (hTrig : s.halftimeTriggered = false)
    (hSup : s.halftimeAutoSuppressed = false)
    (hThr : 0 < s.gameSettings.matchDuration - s.gameSettings.halftimeDuration)
    (hRem : (remainingMs : Int)
        ≤ (s.gameSettings.matchDuration - s.gameSettings.halftimeDuration) * 60 * 1000) :
    handleMainTimerTick s remainingMs = { s with halftimePendingReason := some "clock" } := by
  simp only [handleMainTimerTick, maybeTriggerHalftimeByTime]
  rw [if_neg (by simp [hStart, hTrig])]
  rw [if_neg (by omega)]
  rw [if_neg (by simp [hSup])]
  rw [if_pos (by omega)]
  by_cases hp : s.halftimePendingReason = some "clock"
  · rw [if_neg (by simp [hp])]
    cases s
    simp_all
  · rw [if_pos hp]

theorem maybeTriggerHalftimeByScore_fires (s : AppState) (nowMs : Nat)
    (hStart : s.matchStarted = true) (hTrig : s.halftimeTriggered = false)
    (hRes : s.halftimeReasonResolved = none) (hSup : s.halftimeAutoSuppressed = false)
    (hLead : HALFTIME_SCORE_TARGET ≤ max s.teamAScore s.teamBScore) :
    maybeTriggerHalftimeByScore s nowMs = (handleHalftime s "score" nowMs).2 := by
  simp only [maybeTriggerHalftimeByScore]
  rw [if_neg (by simp [hStart, hTrig]), if_neg (by simp [hRes]),
    if_neg (by simp [hSup]), if_pos hLead]

theorem maybeTriggerHalftimeByScore_noop (s : AppState) (nowMs : Nat)
    (hSup : s.halftimeAutoSuppressed = false)
    (hLead : max s.teamAScore s.teamBScore < HALFTIME_SCORE_TARGET) :
    maybeTriggerHalftimeByScore s nowMs = s := by
  simp only [maybeTriggerHalftimeByScore]
  split
  · rfl
  · split
    · rfl
    · rw [if_neg (by simp [hSup]), if_neg (by omega)]

theorem attemptPendingHalftime_noop (s : AppState) (nowMs : Nat)
    (hTrig : s.halftimeTriggered = true) :
    attemptPendingHalftime s nowMs = s := by
  simp only [attemptPendingHalftime]
  rw [if_pos (by simp [hTrig])]

theorem attemptPendingHalftime_fires (s : AppState) (nowMs : Nat)
    (hStart : s.matchStarted = true) (hTrig : s.halftimeTriggered = false)
    (hRes : s.halftimeReasonResolved = none)
    (hPend : s.halftimePendingReason = some "clock") :
    attemptPendingHalftime s nowMs = (handleHalftime s "clock" nowMs).2 := by
  simp only [attemptPendingHalftime]
  rw [if_neg (by simp [hStart, hTrig]), if_neg (by simp [hRes]), if_neg (by simp [hPend])]
  have hsplit : handleHalftime s "clock" nowMs
      = (true, (handleHalftime s "clock" nowMs).2) := by
    rw [← (handleHalftime_flags s "clock" nowMs hTrig hStart).1]
  rw [hsplit]
  rfl

theorem pipelineResolve (u : AppState) (n : Nat)
    (hStart : u.matchStarted = true) (hTrig : u.halftimeTriggered = false)
    (hRes : u.halftimeReasonResolved = none) (hSup : u.halftimeAutoSuppressed = false)
    (hPend : u.halftimePendingReason = some "clock") :
    (attemptPendingHalftime (maybeTriggerHalftimeByScore u n) n).halftimeTriggered = true
    ∧ (attemptPendingHalftime (maybeTriggerHalftimeByScore u n) n).halftimePendingReason = none
    ∧ (HALFTIME_SCORE_TARGET ≤ max u.teamAScore u.teamBScore →
        (attemptPendingHalftime (maybeTriggerHalftimeByScore u n) n).halftimeReasonResolved
          = some "score")
    ∧ (max u.teamAScore u.teamBScore < HALFTIME_SCORE_TARGET →
        (attemptPendingHalftime (maybeTriggerHalftimeByScore u n) n).halftimeReasonResolved
          = some "clock") := by
  by_cases hc : HALFTIME_SCORE_TARGET ≤ max u.teamAScore u.teamBScore
  · rw [maybeTriggerHalftimeByScore_fires u n hStart hTrig hRes hSup hc]
    have hfl := handleHalftime_flags u "score" n hTrig hStart
    rw [attemptPendingHalftime_noop _ n hfl.2.1]
    exact ⟨hfl.2.1, hfl.2.2.1, fun _ => hfl.2.2.2.2, fun hlt => absurd hc (by omega)⟩
  · have hlt : max u.teamAScore u.teamBScore < HALFTIME_SCORE_TARGET := by omega
    rw [maybeTriggerHalftimeByScore_noop u n hSup hlt,
      attemptPendingHalftime_fires u n hStart hTrig hRes hPend]
    have hfl := handleHalftime_flags u "clock" n hTrig hStart
    exact ⟨hfl.2.1, hfl.2.2.1, fun hge => absurd hge (by omega), fun _ => hfl.2.2.2.2⟩

end Scorekeeper

namespace Scorekeeper

/-- C4: when the primary clock falls to or below matchDuration minus the
halftime-trigger duration and halftime has not been declared (nor suppressed
or already resolved), the tick does NOT declare halftime — it only marks the
pending-clock reason and appends nothing — and the next successfully added
Score event declares it: if that score makes the leading score reach the
score-trigger target the recorded reason is "score" (score trigger takes
precedence), otherwise it is "clock"; in both cases the pending flag is
cleared. -/
theorem clock_halftime_deferred_until_next_score
    (s : AppState) (remainingMs : Nat) (team : Team) (scorer assist : String) (nowAdd : Nat)
    (hStart : s.matchStarted = true)
    (hTrig : s.halftimeTriggered = false)
    (hRes : s.halftimeReasonResolved = none)
    (hSup : s.halftimeAutoSuppressed = false)
    (hCap : s.hardCapReached = false)
    (hScorer : scorer ≠ "") (hAssist : assist ≠ "")
    (hThr : 0 < s.gameSettings.matchDuration - s.gameSettings.halftimeDuration)
    (hRem : (remainingMs : Int)
        ≤ (s.gameSettings.matchDuration - s.gameSettings.halftimeDuration) * 60 * 1000) :
    ((handleMainTimerTick s remainingMs).halftimeTriggered = false
      ∧ (handleMainTimerTick s remainingMs).halftimePendingReason = some "clock"
      ∧ (handleMainTimerTick s remainingMs).scoreLogs = s.scoreLogs)
    ∧ ((handleAddScore (handleMainTimerTick s remainingMs) team scorer assist
          nowAdd).halftimeTriggered = true
      ∧ (handleAddScore (handleMainTimerTick s remainingMs) team scorer assist
          nowAdd).halftimePendingReason = none
      ∧ (HALFTIME_SCORE_TARGET ≤
            max (match team with | Team.A => s.teamAScore + 1 | Team.B => s.teamAScore)
              (match team with | Team.A => s.teamBScore | Team.B => s.teamBScore + 1) →
          (handleAddScore (handleMainTimerTick s remainingMs) team scorer assist
            nowAdd).halftimeReasonResolved = some "score")
      ∧ (max (match team with | Team.A => s.teamAScore + 1 | Team.B => s.teamAScore)
            (match team with | Team.A => s.teamBScore | Team.B => s.teamBScore + 1)
            < HALFTIME_SCORE_TARGET →
          (handleAddScore (handleMainTimerTick s remainingMs) team scorer assist
            nowAdd).halftimeReasonResolved = some "clock")) := by
  have htick := tick_sets_pending s remainingMs hStart hTrig hSup hThr hRem
  rw [htick]
  refine ⟨⟨hTrig, rfl, rfl⟩, ?_⟩
  simp only [handleAddScore]
  rw [if_neg (by simp [hStart]), if_neg (by simp [hCap]),
    if_neg (by simp [hScorer, hAssist])]
  cases team <;>
    (simp only [addNewScore]
     refine ⟨(pipelineResolve _ nowAdd (by simp [checkForScoreCap_flags, hStart])
        (by simp [checkForScoreCap_flags, hTrig]) (by simp [checkForScoreCap_flags, hRes])
        (by simp [checkForScoreCap_flags, hSup])
        (by simp [checkForScoreCap_flags])).1,
       (pipelineResolve _ nowAdd (by simp [checkForScoreCap_flags, hStart])
        (by simp [checkForScoreCap_flags, hTrig]) (by simp [checkForScoreCap_flags, hRes])
        (by simp [checkForScoreCap_flags, hSup])
        (by simp [checkForScoreCap_flags])).2.1,
       fun hge => (pipelineResolve _ nowAdd (by simp [checkForScoreCap_flags, hStart])
        (by simp [checkForScoreCap_flags, hTrig]) (by simp [checkForScoreCap_flags, hRes])
        (by simp [checkForScoreCap_flags, hSup])
        (by simp [checkForScoreCap_flags])).2.2.1
        (by simp only [checkForScoreCap_frame]; simpa using hge),
       fun hlt => (pipelineResolve _ nowAdd (by simp [checkForScoreCap_flags, hStart])
        (by simp [checkForScoreCap_flags, hTrig]) (by simp [checkForScoreCap_flags, hRes])
        (by simp [checkForScoreCap_flags, hSup])
        (by simp [checkForScoreCap_flags])).2.2.2
        (by simp only [checkForScoreCap_frame]; simpa using hlt)⟩)

end Scorekeeper

namespace Scorekeeper

/-- A freshly started default-config match (100 min clock, trigger at 55). -/
def tickWitState : AppState :=
  applyActions (initialState "Red" "Blue") [Action.startMatch 1000]

theorem clock_halftime_deferred_until_next_score_witness :
    (tickWitState.matchStarted = true
      ∧ tickWitState.halftimeTriggered = false
      ∧ tickWitState.halftimeReasonResolved = none
      ∧ 0 < tickWitState.gameSettings.matchDuration - tickWitState.gameSettings.halftimeDuration
      ∧ ((2700000 : Nat) : Int)
          ≤ (tickWitState.gameSettings.matchDuration
              - tickWitState.gameSettings.halftimeDuration) * 60 * 1000)
    ∧ (((handleMainTimerTick tickWitState 2700000).halftimeTriggered = false
        ∧ (handleMainTimerTick tickWitState 2700000).halftimePendingReason = some "clock"
        ∧ (handleMainTimerTick tickWitState 2700000).scoreLogs = tickWitState.scoreLogs)
      ∧ ((handleAddScore (handleMainTimerTick tickWitState 2700000) Team.B "Carol" "Dana"
            3000).halftimeTriggered = true
        ∧ (handleAddScore (handleMainTimerTick tickWitState 2700000) Team.B "Carol" "Dana"
            3000).halftimePendingReason = none
        ∧ (HALFTIME_SCORE_TARGET ≤ max tickWitState.teamAScore (tickWitState.teamBScore + 1) →
            (handleAddScore (handleMainTimerTick tickWitState 2700000) Team.B "Carol" "Dana"
              3000).halftimeReasonResolved = some "score")
        ∧ (max tickWitState.teamAScore (tickWitState.teamBScore + 1) < HALFTIME_SCORE_TARGET →
            (handleAddScore (handleMainTimerTick tickWitState 2700000) Team.B "Carol" "Dana"
              3000).halftimeReasonResolved = some "clock"))) :=
  ⟨⟨by decide, by decide, by decide, by decide, by decide⟩,
   clock_halftime_deferred_until_next_score tickWitState 2700000 Team.B "Carol" "Dana" 3000
     (by decide) (by decide) (by decide) (by decide) (by decide) (by decide) (by decide)
     (by decide) (by decide)⟩

end Scorekeeper

namespace Scorekeeper

theorem scoreboardStep_score_letter (nA nB : String) (acc : Nat × Nat) (e : LogEntry)
    (t : Team) (he : e.type = LogType.score) (ht : e.TeamLetter = some t) :
    scoreboardStep nA nB acc e
      = (match t with
         | Team.A => (acc.1 + 1, acc.2)
         | Team.B => (acc.1, acc.2 + 1)) := by
  cases t <;> simp [scoreboardStep, isScoreLog, getLogType, he, getTeamLetterFromLog, ht]

theorem handleAddScore_scoreboard (s : AppState) (team : Team) (scorer assist : String)
    (nowMs : Nat) (hs : scoreboardAgrees s) :
    scoreboardAgrees (handleAddScore s team scorer assist nowMs) := by
  simp only [handleAddScore]
  split
  · exact hs
  · split
    · exact hs
    · split
      · exact hs
      · obtain ⟨⟨ex, hex, hext⟩, ha, hb, hna, hnb, _, _⟩ :=
          addNewScore_spec s team scorer assist nowMs
        unfold scoreboardAgrees at hs ⊢
        rw [ha, hb, hna, hnb, hex,
          show s.scoreLogs ++ newScoreEntry s team scorer assist nowMs :: ex
            = (s.scoreLogs ++ [newScoreEntry s team scorer assist nowMs]) ++ ex by simp,
          computeScoreboard_append_nonscore _ _ _ ex
            (fun e he => isScoreLog_halftime (hext e he)),
          computeScoreboard_append]
        cases team <;>
          simp only [List.foldl_cons, List.foldl_nil] <;>
          rw [scoreboardStep_score_letter _ _ _ _ _ rfl rfl, ← hs]

theorem handleTimeout_scoreboard (s : AppState) (team : Team) (nowMs : Nat)
    (hs : scoreboardAgrees s) : scoreboardAgrees (handleTimeout s team nowMs).1 := by
  simp only [handleTimeout]
  split
  · exact hs
  · split
    · exact hs
    · split
      · exact hs
      · split
        · exact hs
        · simp only [recordSpecialEvent_fst]
          unfold scoreboardAgrees at hs ⊢
          rw [computeScoreboard_append_nonscore _ _ _ _ (by intro e he; simp at he; subst he; rfl)]
          exact hs

theorem updateScoreLogWith_foldl (nA nB : String) {logs : List LogEntry} {id : String}
    {f : LogEntry → LogEntry} {logs2 : List LogEntry}
    (h : updateScoreLogWith logs id f = some logs2)
    (hf : ∀ acc e, scoreboardStep nA nB acc (f e) = scoreboardStep nA nB acc e)
    (acc : Nat × Nat) :
    logs2.foldl (scoreboardStep nA nB) acc = logs.foldl (scoreboardStep nA nB) acc := by
  induction logs generalizing logs2 acc with
  | nil => exact Option.noConfusion h
  | cons x rest ih =>
    by_cases hx : x.scoreID = id
    · simp only [updateScoreLogWith, if_pos hx, Option.some.injEq] at h
      rw [← h]
      simp [List.foldl_cons, hf]
    · simp only [updateScoreLogWith, if_neg hx] at h
      cases hrec : updateScoreLogWith rest id f with
      | none => rw [hrec] at h; simp at h
      | some tail =>
        rw [hrec] at h
        simp at h
        rw [← h]
        simp only [List.foldl_cons]
        exact ih hrec _

theorem updateExistingScore_scoreboard (s : AppState) (scoreID scorer assist : String)
    (hs : scoreboardAgrees s) :
    scoreboardAgrees (updateExistingScore s scoreID scorer assist) := by
  simp only [updateExistingScore]
  cases hupd : updateScoreLogWith s.scoreLogs scoreID
      (fun e => { e with Score := scorer, Assist := assist }) with
  | none => exact hs
  | some logs2 =>
    dsimp only
    unfold scoreboardAgrees at hs ⊢
    dsimp only
    unfold computeScoreboard
    rw [updateScoreLogWith_foldl s.teamAName s.teamBName hupd (fun acc e => rfl)]
    exact hs

theorem handleStoppageToggle_scoreboard (s : AppState) (nowMs : Nat)
    (hs : scoreboardAgrees s) : scoreboardAgrees (handleStoppageToggle s nowMs) := by
  simp only [handleStoppageToggle]
  split
  · simp only [recordSpecialEvent_fst]
    unfold scoreboardAgrees at hs ⊢
    rw [computeScoreboard_append_nonscore _ _ _ _ (by intro e he; simp at he; subst he; rfl)]
    exact hs
  · exact hs

theorem startMatch_scoreboard (s : AppState) (nowMs : Nat)
    (hs : scoreboardAgrees s) : scoreboardAgrees (startMatch s nowMs) := by
  simp only [startMatch]
  split
  · exact hs
  · split
    · exact hs
    · split
      · exact hs
      · simp only [recordSpecialEvent_fst]
        unfold scoreboardAgrees at hs ⊢
        rw [computeScoreboard_append_nonscore _ _ _ _ (by intro e he; simp at he; subst he; rfl)]
        exact hs

end Scorekeeper

namespace Scorekeeper

theorem applyAction_scoreboard (s : AppState) (a : Action) (hs : scoreboardAgrees s) :
    scoreboardAgrees (applyAction s a) := by
  cases a with
  | startMatch n => exact startMatch_scoreboard s n hs
  | addScore t sc asst n => exact handleAddScore_scoreboard s t sc asst n hs
  | editScore id sc asst => exact updateExistingScore_scoreboard s id sc asst hs
  | deleteScore id n =>
    simp only [applyAction, handleDeleteScore]
    cases h : removeScoreLog s.scoreLogs id with
    | none => exact hs
    | some p => exact rebuild_scoreboardAgrees _ n
  | callTimeout t n => exact handleTimeout_scoreboard s t n hs
  | reassignTimeout id t n =>
    simp only [applyAction, handleTimeoutEditSave]
    cases h : getScoreLog s.scoreLogs id with
    | none => exact hs
    | some log =>
      dsimp only
      split
      · exact hs
      · split
        · exact hs
        · split
          · exact hs
          · exact rebuild_scoreboardAgrees _ n
  | declareHalftime n => exact (handleHalftime_pipelineFrame s "manual" n).scoreboard hs
  | deleteHalftime n =>
    simp only [applyAction, handleHalftimeDelete]
    cases s.currentHalftimeEditID with
    | none => exact hs
    | some id =>
      dsimp only
      split
      · exact hs
      · exact rebuild_scoreboardAgrees _ n
  | toggleStoppage n => exact handleStoppageToggle_scoreboard s n hs
  | clockTick r => exact (maybeTriggerHalftimeByTime_pipelineFrame s r).scoreboard hs

theorem applyActions_scoreboard (acts : List Action) :
    ∀ s : AppState, scoreboardAgrees s → scoreboardAgrees (applyActions s acts) := by
  induction acts with
  | nil => exact fun s hs => hs
  | cons a rest ih =>
    intro s hs
    exact ih (applyAction s a) (applyAction_scoreboard s a hs)

/-- C1: for every sequence of operator actions (accepted or rejected) applied
to a fresh match — add/edit/delete score, timeout calls, timeout
reassignments, halftime declaration and deletion, stoppage toggles, match
start and clock ticks — the scoreboard recomputed by folding over the full
event log (the counter loop of `rebuildTableAndCounters`) equals the
incrementally maintained pair (teamAScore, teamBScore). -/
theorem scoreboard_refinement (teamAName teamBName : String) (acts : List Action) :
    scoreboardAgrees (applyActions (initialState teamAName teamBName) acts) :=
  applyActions_scoreboard acts (initialState teamAName teamBName) rfl

end Scorekeeper
